import Mathlib

/-!
# megaedx7-run: upload protocol of the Mega Everdrive X7 loader

A shallow embedding of `src/megaedx7-run/main.go`.

* A byte is a natural number below 256; `byte(n)` is `n % 256`.
* A `[]byte` is a `List Byte`; `b[:k]` is `List.take k`, `b[k:]` is `List.drop k`.
* The serial port (`fh io.ReadWriter`) is a script: what the k-th call of
  `fh.Write` returns for the slice it is offered, and what the k-th call of
  `readSerial` (one `bufio.Scanner` line) returns.
* The count `n` that `fh.Write` returns is Go's `int`, so it is an `Int` here:
  a port may return a negative count with an error. `wrote` is an `Int` too,
  and the slice expression `buf[wrote:]` with a negative `wrote` is the run-time
  panic of Go (exit status 2).
* `log.Fatalf` and `os.Exit` end the run: they are the `exit` outcome.
* The retry loop of `writeSerial` need not terminate, so it takes fuel; the
  `spin` outcome means the loop was still running when the fuel ran out.
* `time.Sleep` and the progress messages on standard output are not modelled.
-/

namespace MegaEdX7

/-- One byte, as a natural number (below 256 for real data). -/
abbrev Byte := Nat

/-! ## Constants (main.go, lines 18-32) -/

def blockSize : Nat := 512 * 128
def maxGameSize : Nat := 0xf00000

def x7_InitCmd : String := "    *T"
def x7_LoadGameCmd : String := "*g"
def x7_OK : String := "k"
def x7_DataOK : String := "d"
def x7_RunSMS : String := "*rs"
def x7_RunOS : String := "*ro"
def x7_RunCD : String := "*rc"
def x7_RunM10 : String := "*rM"
def x7_RunSSF : String := "*rS"
def x7_RunMegadrive : String := "*rm"

/-- Go's `[]byte(s)`: the UTF-8 bytes of the string. -/
def bytesOf (s : String) : List Byte :=
  s.toUTF8.data.toList.map UInt8.toNat

/-! ## The environment -/

/-- The opened serial port, seen from the program.
`write k p` is what the k-th call `fh.Write(p)` returns: the count `n`, a
signed integer as in Go, and the error (`none` for `nil`, `some msg` for an
error whose `Error()` is `msg`). Of the slice `p` the port has then accepted
the first `n` bytes, none when `n` is negative.
`line k` is what the k-th call of `readSerial` returns (`scanner.Text()`, the
empty string when the scan fails or times out). -/
structure Serial where
  write : Nat → List Byte → Int × Option String
  line : Nat → String

/-- Diagnostics the program prints without stopping. -/
inductive LogMsg where
  /-- `trying again: resource temporarily unavailable` (writeSerial). -/
  | tryingAgain
  /-- `ERROR: bad md5: %x != %x` (sendGame). -/
  | badMd5 (expected wrote : List Byte)
  /-- `WARNING: ROM may be corrupt: expected string 'SEGA' at offset 0x100` (main). -/
  | romWarning
  deriving DecidableEq, Repr

/-- What has happened on the port so far.
`writes` and `reads` count the calls of `fh.Write` and of `readSerial`;
`written` is the bytes the port has accepted, in order (of each `Write(p)`
returning `n`, the first `n` bytes of `p`); `sent` lists the buffers whose
`writeSerial` call has returned; `log` is the diagnostics printed. -/
structure World where
  writes : Nat
  reads : Nat
  written : List Byte
  sent : List (List Byte)
  log : List LogMsg
  deriving DecidableEq, Repr

/-- The state before the first call on a freshly opened port. -/
def World.init : World :=
  { writes := 0, reads := 0, written := [], sent := [], log := [] }

/-- How a run of a procedure ends: it returns (`done`), the process exits with
a status and a message (`exit`), or the retry loop is still going (`spin`). -/
inductive Run (α : Type) where
  | done (a : α) (w : World)
  | exit (code : Int) (msg : String) (w : World)
  | spin
  deriving DecidableEq, Repr

/-! ## writeSerial and readSerial (main.go, lines 202-230) -/

/-- The loop of `writeSerial`, one unit of fuel per test of `wrote < len(buf)`.
The count is added to `wrote` before the error is looked at, as in the source;
`buf[wrote:]` panics when `wrote` is negative. -/
def writeSerialLoop (fh : Serial) (buf : List Byte) : Nat → Int → World → Run Unit
  | 0, _, _ => .spin
  | fuel + 1, wrote, w =>
    if wrote < buf.length then
      if wrote < 0 then
        .exit 2 "panic: runtime error: slice bounds out of range" w
      else
        let r := fh.write w.writes (buf.drop wrote.toNat)
        let w1 : World :=
          { w with writes := w.writes + 1,
                   written := w.written ++ (buf.drop wrote.toNat).take r.1.toNat }
        match r.2 with
        | some err =>
          if err = "resource temporarily unavailable" then
            writeSerialLoop fh buf fuel (wrote + r.1) { w1 with log := w1.log ++ [.tryingAgain] }
          else
            .exit 1 ("write failed: " ++ err) w1
        | none => writeSerialLoop fh buf fuel (wrote + r.1) w1
    else
      .done () w

/-- The procedure `writeSerial(fh, buf)`. -/
def writeSerial (fh : Serial) (fuel : Nat) (buf : List Byte) (w : World) : Run Unit :=
  match writeSerialLoop fh buf fuel 0 w with
  | .done _ w1 => .done () { w1 with sent := w1.sent ++ [buf] }
  | .exit c m w1 => .exit c m w1
  | .spin => .spin

/-- The function `readSerial(fh)`: one scanned line. -/
def readSerial (fh : Serial) (w : World) : String × World :=
  (fh.line w.reads, { w with reads := w.reads + 1 })

/-! ## checkX7, sendGame, startGame (main.go, lines 111-200) -/

/-- The procedure `checkX7(fh)`. -/
def checkX7 (fh : Serial) (fuel : Nat) (w : World) : Run Unit :=
  match writeSerial fh fuel (bytesOf x7_InitCmd) w with
  | .done _ w1 =>
    let r := readSerial fh w1
    if r.1 ≠ x7_OK then .exit 1 "ERROR: Bad response from cart" r.2
    else .done () r.2
  | .exit c m w1 => .exit c m w1
  | .spin => .spin

/-- The block loop of `sendGame`; the first argument is `blockCount - x`, the
result is the byte stream folded into `wroteMd5`. -/
def sendBlocks (fh : Serial) (fuel : Nat) : Nat → List Byte → List Byte → World → Run (List Byte)
  | 0, _, wroteMd5, w => .done wroteMd5 w
  | k + 1, gameData, wroteMd5, w =>
    let block := gameData.take blockSize
    let gameData1 := gameData.drop blockSize
    let wroteMd51 := wroteMd5 ++ block
    match writeSerial fh fuel block w with
    | .done _ w1 => sendBlocks fh fuel k gameData1 wroteMd51 w1
    | .exit c m w1 => .exit c m w1
    | .spin => .spin

/-- The procedure `sendGame(fh, gameData)`. The digest function of `crypto/md5`
is the parameter `md5`; a hash object is the byte stream written to it. -/
def sendGame (md5 : List Byte → List Byte) (fh : Serial) (fuel : Nat)
    (gameData : List Byte) (w : World) : Run Unit :=
  let expectedMd5 := gameData
  match writeSerial fh fuel (bytesOf x7_LoadGameCmd) w with
  | .done _ w1 =>
    let blockCount := gameData.length / blockSize
    let txData : List Byte := [blockCount % 256]
    match writeSerial fh fuel txData w1 with
    | .done _ w2 =>
      let r := readSerial fh w2
      if r.1 ≠ x7_OK then .exit 1 "ERROR: Bad response from cart" r.2
      else
        match sendBlocks fh fuel blockCount gameData [] r.2 with
        | .done wroteMd5 w3 =>
          let w4 : World :=
            if md5 expectedMd5 ≠ md5 wroteMd5 then
              { w3 with log := w3.log ++ [.badMd5 (md5 expectedMd5) (md5 wroteMd5)] }
            else w3
          let r2 := readSerial fh w4
          if r2.1 ≠ x7_DataOK then .exit 1 "ERROR: Bad response from cart" r2.2
          else .done () r2.2
        | .exit c m w3 => .exit c m w3
        | .spin => .spin
    | .exit c m w2 => .exit c m w2
    | .spin => .spin
  | .exit c m w1 => .exit c m w1
  | .spin => .spin

/-- The `switch runMode` of `startGame`: the command of a recognised mode. -/
def runCmd (runMode : String) : Option String :=
  if runMode = "md" then some x7_RunMegadrive
  else if runMode = "sms" then some x7_RunSMS
  else if runMode = "m10" then some x7_RunM10
  else if runMode = "cd" then some x7_RunCD
  else if runMode = "os" then some x7_RunOS
  else if runMode = "ssf" then some x7_RunSSF
  else none

/-- The procedure `startGame(fh, runMode)`. -/
def startGame (fh : Serial) (fuel : Nat) (runMode : String) (w : World) : Run Unit :=
  match runCmd runMode with
  | some cmd =>
    match writeSerial fh fuel (bytesOf cmd) w with
    | .done _ w1 =>
      let r := readSerial fh w1
      if r.1 ≠ x7_OK then .exit 1 ("ERROR: Bad response from cart: " ++ r.1) r.2
      else .done () r.2
    | .exit c m w1 => .exit c m w1
    | .spin => .spin
  | none => .exit (-1) "Unsupported runMode specified" w

/-! ## main (main.go, lines 47-109) -/

/-- The padding loop of `main`: append 0x00 until the length is a multiple of
`blockSize`. -/
def padLoop (gameData : List Byte) : List Byte :=
  if gameData.length % blockSize ≠ 0 then padLoop (gameData ++ [0x00]) else gameData
termination_by (blockSize - gameData.length % blockSize) % blockSize
decreasing_by
  rename_i h
  simp only [List.length_append, List.length_singleton]
  have hb : 0 < blockSize := by decide
  have hlt : gameData.length % blockSize < blockSize := Nat.mod_lt _ hb
  have h2 : 1 % blockSize = 1 := by decide
  rw [Nat.add_mod, h2]
  by_cases h1 : gameData.length % blockSize + 1 = blockSize
  · rw [h1, Nat.mod_self, Nat.sub_zero, Nat.mod_self, Nat.mod_eq_of_lt (by omega)]
    omega
  · rw [Nat.mod_eq_of_lt (a := gameData.length % blockSize + 1) (by omega),
      Nat.mod_eq_of_lt (a := blockSize - (gameData.length % blockSize + 1)) (by omega),
      Nat.mod_eq_of_lt (a := blockSize - gameData.length % blockSize) (by omega)]
    omega

/-- The three calls that end `main` (lines 101-108): `checkX7`, `sendGame`,
`startGame`, on the opened port. -/
def session (md5 : List Byte → List Byte) (fh : Serial) (fuel : Nat) (runMode : String)
    (gameData : List Byte) (w : World) : Run Unit :=
  match checkX7 fh fuel w with
  | .done _ w1 =>
    match sendGame md5 fh fuel gameData w1 with
    | .done _ w2 => startGame fh fuel runMode w2
    | .exit c m w2 => .exit c m w2
    | .spin => .spin
  | .exit c m w1 => .exit c m w1
  | .spin => .spin

/-- The procedure `main` from the point where `ioutil.ReadFile` has returned
`fileData`, with `serial.Open` returning the port `fh` and the flag `runMode`
parsed. The size test comes before the port is opened. The header test only
prints a warning. Its slice `gameData[0x100:0x104]` lies within a padded image
of one block or more; for an empty file it lies within the capacity of the
buffer `ReadFile` returns and does not read `SEGA` either. -/
def main (md5 : List Byte → List Byte) (fh : Serial) (fuel : Nat) (runMode : String)
    (fileData : List Byte) : Run Unit :=
  let gameData := padLoop fileData
  if gameData.length > maxGameSize then
    .exit 1 "Game data exceeds maximum size of 15728640 bytes" World.init
  else
    let w : World :=
      if (gameData.drop 0x100).take 4 ≠ bytesOf "SEGA" then
        { World.init with log := [.romWarning] }
      else World.init
    session md5 fh fuel runMode gameData w

/-! ## Assumptions on the port -/

/-- A port whose `Write` never fails for good and whose counts are those of
`io.Writer`: every call returns a count between 0 and the length of the slice
it is offered, reports no error or the transient one, and a call that is
repeated with the same non-empty slice accepts a byte after finitely many
tries. -/
structure Reliable (fh : Serial) : Prop where
  bounded : ∀ k p, 0 ≤ (fh.write k p).1 ∧ (fh.write k p).1 ≤ p.length
  transient : ∀ k p, (fh.write k p).2 = none ∨
    (fh.write k p).2 = some "resource temporarily unavailable"
  progress : ∀ k p, p ≠ [] → ∃ j, k ≤ j ∧ 0 < (fh.write j p).1

/-- A port that accepts every slice whole, without error. -/
def AcceptsAll (fh : Serial) : Prop :=
  ∀ k p, fh.write k p = ((p.length : Int), none)

/-- World `w1` is world `w` after the buffers `bufs` were delivered by
`writeSerial`, one call each, and `n` lines were read: the bytes accepted are
the concatenation of the buffers, and nothing but retry notices was printed. -/
structure Advanced (w w1 : World) (bufs : List (List Byte)) (n : Nat) : Prop where
  written_eq : w1.written = w.written ++ bufs.flatten
  sent_eq : w1.sent = w.sent ++ bufs
  reads_eq : w1.reads = w.reads + n
  log_sub : ∀ m ∈ w1.log, m ∈ w.log ∨ m = LogMsg.tryingAgain

/-- The blocks of an image in closed form, used to state what `sendGame`
transmits: there are `len/blockSize` of them and block `i` is
`image[i*blockSize : (i+1)*blockSize]`. -/
def blocksOf (image : List Byte) : List (List Byte) :=
  (List.range (image.length / blockSize)).map
    (fun i => (image.drop (i * blockSize)).take blockSize)

/-! ## Sample ports and images -/

/-- A port that accepts every write and answers `k`, `k`, `d`, `k`, `k`, ... -/
def goodPort : Serial :=
  ⟨fun _ p => (p.length, none), fun k => if k = 2 then "d" else "k"⟩

/-- A port that accepts every write and never answers: every read times out. -/
def silentPort : Serial :=
  ⟨fun _ p => (p.length, none), fun _ => ""⟩

/-- A port that accepts every write and answers `k`, `k`, `x`. -/
def refusingPort : Serial :=
  ⟨fun _ p => (p.length, none), fun k => if k = 2 then "x" else "k"⟩

/-- A port that is busy at every call: it reports the transient error each
time, taking nothing at the even calls and one byte at the odd ones. -/
def busyPort : Serial :=
  ⟨fun k p => (((if k % 2 = 0 then 0 else min 1 p.length : Nat) : Int),
      some "resource temporarily unavailable"),
    fun _ => "k"⟩

/-- A port that takes two bytes at the first call, reports the transient
error with the count -1 at the second, as a raw `write(2)` does, and accepts
every slice whole from then on. -/
def staleCountPort : Serial :=
  ⟨fun k p =>
      if k = 0 then (2, none)
      else if k = 1 then (-1, some "resource temporarily unavailable")
      else ((p.length : Int), none),
    fun _ => "k"⟩

/-- A port that reports the transient error with the count -1 at the first
call and accepts every slice whole from then on. -/
def busyFirstPort : Serial :=
  ⟨fun k p =>
      if k = 0 then (-1, some "resource temporarily unavailable")
      else ((p.length : Int), none),
    fun _ => "k"⟩

/-- An image of one block of zero bytes. -/
def oneBlock : List Byte := List.replicate blockSize 0

/-- An image of two blocks of zero bytes. -/
def twoBlocks : List Byte := List.replicate (2 * blockSize) 0

/-- A file of `blockSize + 1` zero bytes. -/
def oddFile : List Byte := List.replicate (blockSize + 1) 0

/-- A file of 241 blocks of zero bytes. -/
def bigFile : List Byte := List.replicate (241 * blockSize) 0

/-! ## The write loop -/

theorem AcceptsAll.reliable {fh : Serial} (h : AcceptsAll fh) : Reliable fh where
  bounded k p := by rw [h k p]; exact ⟨Int.ofNat_nonneg _, le_refl _⟩
  transient k p := by rw [h k p]; exact Or.inl rfl
  progress k p hp := by
    refine ⟨k, le_refl k, ?_⟩
    rw [h k p]
    have := List.length_pos.mpr hp
    show (0 : Int) < (p.length : Int)
    omega

/-- One turn of the loop when `wrote` and the count returned are not negative. -/
theorem writeSerialLoop_step (fh : Serial) (buf : List Byte) (fuel wrote : Nat) (w : World)
    (hlt : wrote < buf.length) (hn : 0 ≤ (fh.write w.writes (buf.drop wrote)).1) :
    writeSerialLoop fh buf (fuel + 1) (wrote : Int) w =
      match (fh.write w.writes (buf.drop wrote)).2 with
      | some err =>
        if err = "resource temporarily unavailable" then
          writeSerialLoop fh buf fuel
            ((wrote + (fh.write w.writes (buf.drop wrote)).1.toNat : Nat) : Int)
            ⟨w.writes + 1, w.reads,
              w.written ++ (buf.drop wrote).take (fh.write w.writes (buf.drop wrote)).1.toNat,
              w.sent, w.log ++ [.tryingAgain]⟩
        else
          .exit 1 ("write failed: " ++ err)
            ⟨w.writes + 1, w.reads,
              w.written ++ (buf.drop wrote).take (fh.write w.writes (buf.drop wrote)).1.toNat,
              w.sent, w.log⟩
      | none =>
        writeSerialLoop fh buf fuel
          ((wrote + (fh.write w.writes (buf.drop wrote)).1.toNat : Nat) : Int)
          ⟨w.writes + 1, w.reads,
            w.written ++ (buf.drop wrote).take (fh.write w.writes (buf.drop wrote)).1.toNat,
            w.sent, w.log⟩ := by
  have h1 : ((wrote : Nat) : Int) < (buf.length : Int) := Int.ofNat_lt.mpr hlt
  have h2 : ¬ ((wrote : Nat) : Int) < 0 := by omega
  have h3 : ((wrote + (fh.write w.writes (buf.drop wrote)).1.toNat : Nat) : Int) =
      (wrote : Int) + (fh.write w.writes (buf.drop wrote)).1 := by
    rw [Nat.cast_add, Int.toNat_of_nonneg hn]
  rw [writeSerialLoop, if_pos h1, if_neg h2, h3]
  simp only [Int.toNat_ofNat]

/-- The loop returns once `wrote` has reached the length of the buffer. -/
theorem writeSerialLoop_stop (fh : Serial) (buf : List Byte) (fuel wrote : Nat) (w : World)
    (hge : ¬ wrote < buf.length) :
    writeSerialLoop fh buf (fuel + 1) (wrote : Int) w = .done () w := by
  have h1 : ¬ ((wrote : Nat) : Int) < (buf.length : Int) := by omega
  rw [writeSerialLoop, if_neg h1]

/-- One turn of the loop on a reliable port: the call is made, the count is
added, and the loop goes on. -/
theorem writeSerialLoop_turn {fh : Serial} (hr : Reliable fh) (buf : List Byte)
    (wrote : Nat) (w : World) (hlt : wrote < buf.length) :
    ∃ w1 : World, w1.writes = w.writes + 1 ∧
      ∀ fuel, writeSerialLoop fh buf (fuel + 1) (wrote : Int) w =
        writeSerialLoop fh buf fuel
          ((wrote + (fh.write w.writes (buf.drop wrote)).1.toNat : Nat) : Int) w1 := by
  have hn := (hr.bounded w.writes (buf.drop wrote)).1
  rcases hr.transient w.writes (buf.drop wrote) with h | h
  · exact ⟨World.mk (w.writes + 1) w.reads
        (w.written ++ (buf.drop wrote).take (fh.write w.writes (buf.drop wrote)).1.toNat)
        w.sent w.log, rfl,
      fun fuel => by simp only [writeSerialLoop_step fh buf fuel wrote w hlt hn, h]⟩
  · exact ⟨World.mk (w.writes + 1) w.reads
        (w.written ++ (buf.drop wrote).take (fh.write w.writes (buf.drop wrote)).1.toNat)
        w.sent (w.log ++ [LogMsg.tryingAgain]), rfl,
      fun fuel => by simp only [writeSerialLoop_step fh buf fuel wrote w hlt hn, h, if_true]⟩

/-- On a reliable port the loop ends, and more fuel does not change how. -/
theorem writeSerialLoop_ends {fh : Serial} (hr : Reliable fh) (buf : List Byte) :
    ∀ (rem wrote : Nat) (w : World), buf.length - wrote = rem →
      ∃ f0 w1, ∀ fuel, f0 ≤ fuel →
        writeSerialLoop fh buf fuel (wrote : Int) w = .done () w1 := by
  intro rem
  induction rem using Nat.strong_induction_on with
  | _ rem ih =>
    intro wrote w hrem
    by_cases hlt : wrote < buf.length
    · have hne : buf.drop wrote ≠ [] := by
        intro h0
        have := congrArg List.length h0
        simp at this
        omega
      obtain ⟨j, hj, hpos⟩ := hr.progress w.writes (buf.drop wrote) hne
      obtain ⟨d, hd⟩ : ∃ d, j = w.writes + d := ⟨j - w.writes, by omega⟩
      clear hj
      induction d generalizing w with
      | zero =>
        obtain ⟨w1, _, hstep⟩ := writeSerialLoop_turn hr buf wrote w hlt
        have hb := (hr.bounded w.writes (buf.drop wrote)).2
        simp only [List.length_drop] at hb
        rw [hd, Nat.add_zero] at hpos
        obtain ⟨f0, w2, h2⟩ :=
          ih (buf.length - (wrote + (fh.write w.writes (buf.drop wrote)).1.toNat))
            (by omega) (wrote + (fh.write w.writes (buf.drop wrote)).1.toNat) w1 rfl
        refine ⟨f0 + 1, w2, fun fuel hf => ?_⟩
        obtain ⟨g, rfl⟩ : ∃ g, fuel = g + 1 := ⟨fuel - 1, by omega⟩
        rw [hstep g]
        exact h2 g (by omega)
      | succ d ihd =>
        obtain ⟨w1, hw1, hstep⟩ := writeSerialLoop_turn hr buf wrote w hlt
        obtain ⟨hb0, hb⟩ := hr.bounded w.writes (buf.drop wrote)
        simp only [List.length_drop] at hb
        by_cases hn : 0 < (fh.write w.writes (buf.drop wrote)).1
        · obtain ⟨f0, w2, h2⟩ :=
            ih (buf.length - (wrote + (fh.write w.writes (buf.drop wrote)).1.toNat))
              (by omega) (wrote + (fh.write w.writes (buf.drop wrote)).1.toNat) w1 rfl
          refine ⟨f0 + 1, w2, fun fuel hf => ?_⟩
          obtain ⟨g, rfl⟩ : ∃ g, fuel = g + 1 := ⟨fuel - 1, by omega⟩
          rw [hstep g]
          exact h2 g (by omega)
        · have hz : (fh.write w.writes (buf.drop wrote)).1.toNat = 0 := by omega
          obtain ⟨f0, w2, h2⟩ := ihd w1 (by rw [hw1]; omega)
          refine ⟨f0 + 1, w2, fun fuel hf => ?_⟩
          obtain ⟨g, rfl⟩ : ∃ g, fuel = g + 1 := ⟨fuel - 1, by omega⟩
          rw [hstep g, hz, Nat.add_zero]
          exact h2 g (by omega)
    · refine ⟨1, w, fun fuel hf => ?_⟩
      obtain ⟨g, rfl⟩ : ∃ g, fuel = g + 1 := ⟨fuel - 1, by omega⟩
      exact writeSerialLoop_stop fh buf g wrote w hlt

/-- On a port that never returns a negative count, a loop that returns has
had the port accept the rest of the buffer, in order, and has read nothing. -/
theorem writeSerialLoop_done (fh : Serial) (hnn : ∀ k p, 0 ≤ (fh.write k p).1)
    (buf : List Byte) :
    ∀ (fuel wrote : Nat) (w w1 : World),
      writeSerialLoop fh buf fuel (wrote : Int) w = .done () w1 →
      w1.written = w.written ++ buf.drop wrote ∧ w1.sent = w.sent ∧ w1.reads = w.reads ∧
        ∀ m ∈ w1.log, m ∈ w.log ∨ m = LogMsg.tryingAgain := by
  intro fuel
  induction fuel with
  | zero => intro wrote w w1 h; simp [writeSerialLoop] at h
  | succ fuel ih =>
    intro wrote w w1 h
    have hsplit : ∀ n, (buf.drop wrote).take n ++ buf.drop (wrote + n) = buf.drop wrote := by
      intro n
      rw [← List.drop_drop]
      exact List.take_append_drop n _
    by_cases hlt : wrote < buf.length
    · rw [writeSerialLoop_step fh buf fuel wrote w hlt (hnn _ _)] at h
      split at h
      · split at h
        · obtain ⟨h1, h2, h3, h4⟩ := ih _ _ _ h
          refine ⟨?_, h2, h3, ?_⟩
          · rw [h1]; simp only [List.append_assoc, hsplit]
          · intro m hm
            rcases h4 m hm with h5 | h5
            · simp only [List.mem_append, List.mem_singleton] at h5
              exact h5
            · exact Or.inr h5
        · exact absurd h (by simp)
      · obtain ⟨h1, h2, h3, h4⟩ := ih _ _ _ h
        refine ⟨?_, h2, h3, h4⟩
        rw [h1]; simp only [List.append_assoc, hsplit]
    · rw [writeSerialLoop_stop fh buf fuel wrote w hlt] at h
      have hw : w = w1 := by injection h
      subst hw
      have : buf.drop wrote = [] := List.drop_eq_nil_of_le (by omega)
      refine ⟨by simp [this], rfl, rfl, fun m hm => Or.inl hm⟩

theorem Advanced.refl (w : World) : Advanced w w [] 0 :=
  ⟨by simp, by simp, rfl, fun _ hm => Or.inl hm⟩

theorem Advanced.trans {w w1 w2 : World} {a b : List (List Byte)} {n m : Nat}
    (h1 : Advanced w w1 a n) (h2 : Advanced w1 w2 b m) : Advanced w w2 (a ++ b) (n + m) where
  written_eq := by rw [h2.written_eq, h1.written_eq]; simp
  sent_eq := by rw [h2.sent_eq, h1.sent_eq]; simp
  reads_eq := by rw [h2.reads_eq, h1.reads_eq]; omega
  log_sub := by
    intro x hx
    rcases h2.log_sub x hx with h | h
    · exact h1.log_sub x h
    · exact Or.inr h

theorem Advanced.read (fh : Serial) (w : World) : Advanced w (readSerial fh w).2 [] 1 :=
  ⟨by simp [readSerial], by simp [readSerial], rfl, fun _ hm => Or.inl hm⟩

/-- On a reliable port `writeSerial` returns, with the buffer delivered. -/
theorem writeSerial_lands {fh : Serial} (hr : Reliable fh) (buf : List Byte) (w : World) :
    ∃ f0 w1, Advanced w w1 [buf] 0 ∧
      ∀ fuel, f0 ≤ fuel → writeSerial fh fuel buf w = .done () w1 := by
  obtain ⟨f0, w1, h⟩ := writeSerialLoop_ends hr buf buf.length 0 w rfl
  obtain ⟨h1, h2, h3, h4⟩ :=
    writeSerialLoop_done fh (fun k p => (hr.bounded k p).1) buf f0 0 w w1 (h f0 (le_refl _))
  have h' : ∀ fuel, f0 ≤ fuel → writeSerialLoop fh buf fuel 0 w = .done () w1 := h
  refine ⟨f0, { w1 with sent := w1.sent ++ [buf] }, ⟨?_, ?_, ?_, h4⟩, fun fuel hf => ?_⟩
  · simpa using h1
  · simp [h2]
  · simpa using h3
  · simp only [writeSerial, h' fuel hf]

theorem checkX7_lands {fh : Serial} (hr : Reliable fh) (w : World) :
    ∃ f0 w1, Advanced w w1 [bytesOf x7_InitCmd] 1 ∧
      ∀ fuel, f0 ≤ fuel → checkX7 fh fuel w =
        if fh.line w.reads ≠ x7_OK then .exit 1 "ERROR: Bad response from cart" w1
        else .done () w1 := by
  obtain ⟨f0, w1, ha, h⟩ := writeSerial_lands hr (bytesOf x7_InitCmd) w
  refine ⟨f0, (readSerial fh w1).2, ha.trans (Advanced.read fh w1), fun fuel hf => ?_⟩
  simp only [checkX7, h fuel hf, readSerial, ha.reads_eq, Nat.add_zero]

/-- The first `k` blocks of `g`, as the loop of `sendGame` cuts them. -/
theorem blocks_succ (k : Nat) (g : List Byte) :
    (List.range (k + 1)).map (fun i => (g.drop (i * blockSize)).take blockSize) =
      g.take blockSize ::
        (List.range k).map (fun i => ((g.drop blockSize).drop (i * blockSize)).take blockSize) := by
  rw [List.range_succ_eq_map, List.map_cons, List.map_map]
  simp only [Nat.zero_mul, List.drop_zero, List.cons.injEq, true_and]
  apply List.map_congr_left
  intro i _
  simp only [Function.comp, List.drop_drop]
  congr 2
  rw [Nat.succ_mul]; omega

theorem blocks_flatten (k : Nat) : ∀ g : List Byte,
    ((List.range k).map (fun i => (g.drop (i * blockSize)).take blockSize)).flatten =
      g.take (k * blockSize) := by
  induction k with
  | zero => intro g; simp
  | succ k ih =>
    intro g
    rw [blocks_succ, List.flatten_cons, ih (g.drop blockSize), Nat.succ_mul, Nat.add_comm,
      List.take_add]

theorem blocksOf_flatten (image : List Byte) (h : image.length % blockSize = 0) :
    (blocksOf image).flatten = image := by
  unfold blocksOf
  rw [blocks_flatten]
  apply List.take_of_length_le
  rw [Nat.div_mul_cancel (Nat.dvd_of_mod_eq_zero h)]

theorem sendBlocks_lands {fh : Serial} (hr : Reliable fh) (k : Nat) :
    ∀ (g acc : List Byte) (w : World), ∃ f0 w1,
      Advanced w w1 ((List.range k).map (fun i => (g.drop (i * blockSize)).take blockSize)) 0 ∧
      ∀ fuel, f0 ≤ fuel →
        sendBlocks fh fuel k g acc w = .done (acc ++ g.take (k * blockSize)) w1 := by
  induction k with
  | zero =>
    intro g acc w
    exact ⟨0, w, by simpa using Advanced.refl w, fun fuel _ => by simp [sendBlocks]⟩
  | succ k ih =>
    intro g acc w
    obtain ⟨f1, w1, ha1, h1⟩ := writeSerial_lands hr (g.take blockSize) w
    obtain ⟨f2, w2, ha2, h2⟩ := ih (g.drop blockSize) (acc ++ g.take blockSize) w1
    refine ⟨max f1 f2, w2, ?_, fun fuel hf => ?_⟩
    · rw [blocks_succ]
      exact ha1.trans ha2
    · simp only [sendBlocks, h1 fuel (le_trans (le_max_left _ _) hf),
        h2 fuel (le_trans (le_max_right _ _) hf), List.append_assoc]
      rw [Nat.succ_mul, Nat.add_comm (k * blockSize), List.take_add]

/-- On a reliable port, with an image of whole blocks, `sendGame` ends in one
of three ways, told apart by the two lines it reads. -/
theorem sendGame_lands (md5 : List Byte → List Byte) {fh : Serial} (hr : Reliable fh)
    (g : List Byte) (hg : g.length % blockSize = 0) (w : World) :
    ∃ f0 w1 w2,
      Advanced w w1 [bytesOf x7_LoadGameCmd, [g.length / blockSize % 256]] 1 ∧
      Advanced w w2 ([bytesOf x7_LoadGameCmd, [g.length / blockSize % 256]] ++ blocksOf g) 2 ∧
      ∀ fuel, f0 ≤ fuel → sendGame md5 fh fuel g w =
        if fh.line w.reads ≠ x7_OK then .exit 1 "ERROR: Bad response from cart" w1
        else if fh.line (w.reads + 1) ≠ x7_DataOK then
          .exit 1 "ERROR: Bad response from cart" w2
        else .done () w2 := by
  obtain ⟨f1, u1, ha1, h1⟩ := writeSerial_lands hr (bytesOf x7_LoadGameCmd) w
  obtain ⟨f2, u2, ha2, h2⟩ := writeSerial_lands hr [g.length / blockSize % 256] u1
  obtain ⟨f3, u3, ha3, h3⟩ :=
    sendBlocks_lands hr (g.length / blockSize) g [] (readSerial fh u2).2
  have hcmd := ha1.trans ha2
  have hA1 := hcmd.trans (Advanced.read fh u2)
  have hA2 := (hA1.trans ha3).trans (Advanced.read fh u3)
  have htake : g.take (g.length / blockSize * blockSize) = g := by
    apply List.take_of_length_le
    rw [Nat.div_mul_cancel (Nat.dvd_of_mod_eq_zero hg)]
  have hr2 : u2.reads = w.reads := by simpa using hcmd.reads_eq
  have hr3 : u3.reads = w.reads + 1 := by
    have := (hA1.trans ha3).reads_eq
    simpa using this
  refine ⟨max f1 (max f2 f3), (readSerial fh u2).2, (readSerial fh u3).2, ?_, ?_,
    fun fuel hf => ?_⟩
  · simpa using hA1
  · simpa [blocksOf] using hA2
  · have hf1 : f1 ≤ fuel := le_trans (le_max_left _ _) hf
    have hf2 : f2 ≤ fuel := le_trans (le_trans (le_max_left _ _) (le_max_right _ _)) hf
    have hf3 : f3 ≤ fuel := le_trans (le_trans (le_max_right _ _) (le_max_right _ _)) hf
    simp only [sendGame, h1 fuel hf1, h2 fuel hf2]
    by_cases hk : fh.line w.reads = x7_OK
    · have hk2 : (readSerial fh u2).1 = x7_OK := by simp [readSerial, hr2, hk]
      simp only [hk2, hk, ne_eq, not_true_eq_false, if_false, h3 fuel hf3, List.nil_append,
        htake]
      simp only [readSerial, hr3]
    · have hk2 : (readSerial fh u2).1 ≠ x7_OK := by simp [readSerial, hr2, hk]
      simp only [hk2, hk, ne_eq, not_false_eq_true, if_true]

theorem startGame_unsupported (fh : Serial) (fuel : Nat) (runMode : String) (w : World)
    (h : runCmd runMode = none) :
    startGame fh fuel runMode w = .exit (-1) "Unsupported runMode specified" w := by
  simp only [startGame, h]

theorem startGame_lands {fh : Serial} (hr : Reliable fh) (runMode cmd : String)
    (h : runCmd runMode = some cmd) (w : World) :
    ∃ f0 w1, Advanced w w1 [bytesOf cmd] 1 ∧
      ∀ fuel, f0 ≤ fuel → startGame fh fuel runMode w =
        if fh.line w.reads ≠ x7_OK then
          .exit 1 ("ERROR: Bad response from cart: " ++ fh.line w.reads) w1
        else .done () w1 := by
  obtain ⟨f0, w1, ha, hw⟩ := writeSerial_lands hr (bytesOf cmd) w
  refine ⟨f0, (readSerial fh w1).2, ha.trans (Advanced.read fh w1), fun fuel hf => ?_⟩
  simp only [startGame, h, hw fuel hf, readSerial, ha.reads_eq, Nat.add_zero]

/-- Whatever the port does, the loop reads no line and hands no buffer on. -/
theorem writeSerialLoop_frame (fh : Serial) (buf : List Byte) :
    ∀ (fuel : Nat) (wrote : Int) (w w1 : World),
      writeSerialLoop fh buf fuel wrote w = .done () w1 →
        w1.sent = w.sent ∧ w1.reads = w.reads := by
  intro fuel
  induction fuel with
  | zero => intro wrote w w1 h; simp [writeSerialLoop] at h
  | succ fuel ih =>
    intro wrote w w1 h
    rw [writeSerialLoop] at h
    split at h
    · split at h
      · exact absurd h (by simp)
      · dsimp only at h
        split at h
        · split at h
          · have h1 := ih _ _ _ h
            exact h1
          · exact absurd h (by simp)
        · have h1 := ih _ _ _ h
          exact h1
    · have hw : w = w1 := by injection h
      subst hw
      exact ⟨rfl, rfl⟩

/-- Whatever the port does, a `writeSerial` that returns has read no line and
has recorded its buffer as handed over. -/
theorem writeSerial_frame (fh : Serial) (fuel : Nat) (buf : List Byte) (w w1 : World)
    (h : writeSerial fh fuel buf w = .done () w1) :
    w1.sent = w.sent ++ [buf] ∧ w1.reads = w.reads := by
  unfold writeSerial at h
  split at h
  · rename_i u hu
    obtain ⟨h1, h2⟩ := writeSerialLoop_frame fh buf fuel 0 w u hu
    have hw : w1 = { u with sent := u.sent ++ [buf] } := by injection h with _ h; exact h.symm
    subst hw
    exact ⟨by simp [h1], h2⟩
  · exact absurd h (by simp)
  · exact absurd h (by simp)

/-- On a port that never returns a negative count, a `writeSerial` that
returns has delivered its buffer. -/
theorem writeSerial_done (fh : Serial) (hnn : ∀ k p, 0 ≤ (fh.write k p).1) (fuel : Nat)
    (buf : List Byte) (w w1 : World)
    (h : writeSerial fh fuel buf w = .done () w1) : Advanced w w1 [buf] 0 := by
  unfold writeSerial at h
  split at h
  · rename_i u hu
    obtain ⟨h1, h2, h3, h4⟩ := writeSerialLoop_done fh hnn buf fuel 0 w u hu
    have hw : w1 = { u with sent := u.sent ++ [buf] } := by injection h with _ h; exact h.symm
    subst hw
    exact ⟨by simpa using h1, by simp [h2], by simpa using h3, h4⟩
  · exact absurd h (by simp)
  · exact absurd h (by simp)

/-- The session on a reliable port, for an image of whole blocks: where it
ends is decided by the four lines read and by the run mode. -/
theorem session_lands (md5 : List Byte → List Byte) {fh : Serial} (hr : Reliable fh)
    (runMode : String) (g : List Byte) (hg : g.length % blockSize = 0) (w : World) :
    ∃ f0 w1 w2 w3 w4,
      Advanced w w1 [bytesOf x7_InitCmd] 1 ∧
      Advanced w w2 [bytesOf x7_InitCmd, bytesOf x7_LoadGameCmd, [g.length / blockSize % 256]] 2 ∧
      Advanced w w3 ([bytesOf x7_InitCmd, bytesOf x7_LoadGameCmd, [g.length / blockSize % 256]]
        ++ blocksOf g) 3 ∧
      (∀ cmd, runCmd runMode = some cmd →
        Advanced w w4 ([bytesOf x7_InitCmd, bytesOf x7_LoadGameCmd,
          [g.length / blockSize % 256]] ++ blocksOf g ++ [bytesOf cmd]) 4) ∧
      ∀ fuel, f0 ≤ fuel →
        checkX7 fh fuel w =
          (if fh.line w.reads ≠ x7_OK then .exit 1 "ERROR: Bad response from cart" w1
           else .done () w1) ∧
        sendGame md5 fh fuel g w1 =
          (if fh.line (w.reads + 1) ≠ x7_OK then .exit 1 "ERROR: Bad response from cart" w2
           else if fh.line (w.reads + 2) ≠ x7_DataOK then
             .exit 1 "ERROR: Bad response from cart" w3
           else .done () w3) ∧
        session md5 fh fuel runMode g w =
          if fh.line w.reads ≠ x7_OK then .exit 1 "ERROR: Bad response from cart" w1
          else if fh.line (w.reads + 1) ≠ x7_OK then .exit 1 "ERROR: Bad response from cart" w2
          else if fh.line (w.reads + 2) ≠ x7_DataOK then
            .exit 1 "ERROR: Bad response from cart" w3
          else match runCmd runMode with
            | none => .exit (-1) "Unsupported runMode specified" w3
            | some _ =>
              if fh.line (w.reads + 3) ≠ x7_OK then
                .exit 1 ("ERROR: Bad response from cart: " ++ fh.line (w.reads + 3)) w4
              else .done () w4 := by
  obtain ⟨f1, u1, ha1, h1⟩ := checkX7_lands hr w
  obtain ⟨f2, u2, u3, ha2, ha3, h2⟩ := sendGame_lands md5 hr g hg u1
  have hr1 : u1.reads = w.reads + 1 := ha1.reads_eq
  have hA2 := ha1.trans ha2
  have hA3 := ha1.trans ha3
  have hr3 : u3.reads = w.reads + 3 := hA3.reads_eq
  rw [hr1] at h2
  cases hc : runCmd runMode with
  | none =>
    refine ⟨max f1 f2, u1, u2, u3, u3, ha1, by simpa using hA2, by simpa using hA3,
      fun cmd h => by simp at h, fun fuel hf => ?_⟩
    have e1 := h1 fuel (le_trans (le_max_left _ _) hf)
    have e2 := h2 fuel (le_trans (le_max_right _ _) hf)
    refine ⟨e1, e2, ?_⟩
    simp only [session, e1]
    by_cases k0 : fh.line w.reads = x7_OK
    · simp only [k0, ne_eq, not_true_eq_false, if_false, e2]
      by_cases k1 : fh.line (w.reads + 1) = x7_OK
      · simp only [k1, ne_eq, not_true_eq_false, if_false]
        by_cases k2 : fh.line (w.reads + 2) = x7_DataOK
        · simp only [k2, ne_eq, not_true_eq_false, if_false]
          exact startGame_unsupported fh fuel runMode u3 hc
        · simp only [k2, ne_eq, not_false_eq_true, if_true]
      · simp only [k1, ne_eq, not_false_eq_true, if_true]
    · simp only [k0, ne_eq, not_false_eq_true, if_true]
  | some cmd =>
    obtain ⟨f3, u4, ha4, h3⟩ := startGame_lands hr runMode cmd hc u3
    rw [hr3] at h3
    refine ⟨max f1 (max f2 f3), u1, u2, u3, u4, ha1, by simpa using hA2, by simpa using hA3,
      fun c h => ?_, fun fuel hf => ?_⟩
    · have hcc : cmd = c := by simpa using h
      subst hcc
      simpa using hA3.trans ha4
    · have e1 := h1 fuel (le_trans (le_max_left _ _) hf)
      have e2 := h2 fuel (le_trans (le_trans (le_max_left _ _) (le_max_right _ _)) hf)
      have e3 := h3 fuel (le_trans (le_trans (le_max_right _ _) (le_max_right _ _)) hf)
      refine ⟨e1, e2, ?_⟩
      simp only [session, e1]
      by_cases k0 : fh.line w.reads = x7_OK
      · simp only [k0, ne_eq, not_true_eq_false, if_false, e2]
        by_cases k1 : fh.line (w.reads + 1) = x7_OK
        · simp only [k1, ne_eq, not_true_eq_false, if_false]
          by_cases k2 : fh.line (w.reads + 2) = x7_DataOK
          · simp only [k2, ne_eq, not_true_eq_false, if_false]
            exact e3
          · simp only [k2, ne_eq, not_false_eq_true, if_true]
        · simp only [k1, ne_eq, not_false_eq_true, if_true]
      · simp only [k0, ne_eq, not_false_eq_true, if_true]

/-! ## A port that accepts every write -/

/-- One `Write` call delivers a non-empty buffer whole. -/
theorem writeSerial_whole {fh : Serial} (h : AcceptsAll fh) (buf : List Byte) (hne : buf ≠ [])
    (fuel : Nat) (hf : 2 ≤ fuel) (w : World) :
    writeSerial fh fuel buf w =
      .done () ⟨w.writes + 1, w.reads, w.written ++ buf, w.sent ++ [buf], w.log⟩ := by
  obtain ⟨g, rfl⟩ : ∃ g, fuel = g + 2 := ⟨fuel - 2, by omega⟩
  have hpos : 0 < buf.length := List.length_pos.mpr hne
  have hn : 0 ≤ (fh.write w.writes (buf.drop 0)).1 := by
    rw [h]; exact Int.ofNat_nonneg _
  have e1 : writeSerialLoop fh buf (g + 2) 0 w =
      writeSerialLoop fh buf (g + 1) ((buf.length : Nat) : Int)
        ⟨w.writes + 1, w.reads, w.written ++ buf, w.sent, w.log⟩ := by
    have := writeSerialLoop_step fh buf (g + 1) 0 w hpos hn
    simp only [List.drop_zero, h w.writes buf, Int.toNat_ofNat, List.take_length,
      Nat.zero_add] at this
    exact this
  have e2 : writeSerialLoop fh buf (g + 1) ((buf.length : Nat) : Int)
      ⟨w.writes + 1, w.reads, w.written ++ buf, w.sent, w.log⟩ =
        .done () ⟨w.writes + 1, w.reads, w.written ++ buf, w.sent, w.log⟩ :=
    writeSerialLoop_stop fh buf g buf.length _ (Nat.lt_irrefl _)
  simp only [writeSerial, e1, e2]

theorem checkX7_whole {fh : Serial} (h : AcceptsAll fh) (fuel : Nat) (hf : 2 ≤ fuel)
    (w : World) :
    checkX7 fh fuel w =
      if fh.line w.reads ≠ x7_OK then
        .exit 1 "ERROR: Bad response from cart"
          ⟨w.writes + 1, w.reads + 1, w.written ++ bytesOf x7_InitCmd,
            w.sent ++ [bytesOf x7_InitCmd], w.log⟩
      else
        .done () ⟨w.writes + 1, w.reads + 1, w.written ++ bytesOf x7_InitCmd,
          w.sent ++ [bytesOf x7_InitCmd], w.log⟩ := by
  simp only [checkX7, writeSerial_whole h (bytesOf x7_InitCmd) (by decide) fuel hf, readSerial]

theorem sendBlocks_whole {fh : Serial} (h : AcceptsAll fh) (fuel : Nat) (hf : 2 ≤ fuel)
    (k : Nat) : ∀ (g acc : List Byte) (w : World), k * blockSize ≤ g.length →
      sendBlocks fh fuel k g acc w =
        .done (acc ++ g.take (k * blockSize))
          ⟨w.writes + k, w.reads, w.written ++ g.take (k * blockSize),
            w.sent ++ (List.range k).map (fun i => (g.drop (i * blockSize)).take blockSize),
            w.log⟩ := by
  induction k with
  | zero => intro g acc w _; simp [sendBlocks]
  | succ k ih =>
    intro g acc w hk
    have hb : 0 < blockSize := by decide
    rw [Nat.succ_mul] at hk
    have hne : g.take blockSize ≠ [] := by
      intro h0
      have := congrArg List.length h0
      rw [List.length_take, List.length_nil] at this
      omega
    have hk2 : k * blockSize ≤ (g.drop blockSize).length := by
      rw [List.length_drop]; omega
    simp only [sendBlocks, writeSerial_whole h _ hne fuel hf, ih _ _ _ hk2, blocks_succ]
    rw [Nat.succ_mul, Nat.add_comm (k * blockSize), List.take_add]
    simp only [List.append_assoc, List.singleton_append, Nat.add_assoc, Nat.add_comm 1 k]

/-- With every write accepted, `sendGame` makes one `Write` call for the
command, one for the count and one for each block. -/
theorem sendGame_whole (md5 : List Byte → List Byte) {fh : Serial} (h : AcceptsAll fh)
    (fuel : Nat) (hf : 2 ≤ fuel) (g : List Byte) (hg : g.length % blockSize = 0) (w : World) :
    sendGame md5 fh fuel g w =
      if fh.line w.reads ≠ x7_OK then
        .exit 1 "ERROR: Bad response from cart"
          ⟨w.writes + 2, w.reads + 1,
            w.written ++ bytesOf x7_LoadGameCmd ++ [g.length / blockSize % 256],
            w.sent ++ [bytesOf x7_LoadGameCmd, [g.length / blockSize % 256]], w.log⟩
      else if fh.line (w.reads + 1) ≠ x7_DataOK then
        .exit 1 "ERROR: Bad response from cart"
          ⟨w.writes + 2 + g.length / blockSize, w.reads + 2,
            w.written ++ bytesOf x7_LoadGameCmd ++ [g.length / blockSize % 256] ++ g,
            w.sent ++ [bytesOf x7_LoadGameCmd, [g.length / blockSize % 256]] ++ blocksOf g,
            w.log⟩
      else
        .done ()
          ⟨w.writes + 2 + g.length / blockSize, w.reads + 2,
            w.written ++ bytesOf x7_LoadGameCmd ++ [g.length / blockSize % 256] ++ g,
            w.sent ++ [bytesOf x7_LoadGameCmd, [g.length / blockSize % 256]] ++ blocksOf g,
            w.log⟩ := by
  have hle : g.length / blockSize * blockSize ≤ g.length := Nat.div_mul_le_self _ _
  have htake : g.take (g.length / blockSize * blockSize) = g := by
    apply List.take_of_length_le
    rw [Nat.div_mul_cancel (Nat.dvd_of_mod_eq_zero hg)]
  simp only [sendGame, writeSerial_whole h (bytesOf x7_LoadGameCmd) (by decide) fuel hf,
    writeSerial_whole h [g.length / blockSize % 256] (by simp) fuel hf, readSerial,
    sendBlocks_whole h fuel hf _ g [] _ hle, htake, List.nil_append, ne_eq, not_true_eq_false,
    if_false, blocksOf, List.append_assoc, List.singleton_append, List.cons_append,
    List.nil_append]

theorem runCmd_mem (runMode cmd : String) (h : runCmd runMode = some cmd) :
    cmd ∈ [x7_RunMegadrive, x7_RunSMS, x7_RunM10, x7_RunCD, x7_RunOS, x7_RunSSF] := by
  unfold runCmd at h
  split_ifs at h <;> simp only [Option.some.injEq] at h <;> subst h <;> simp

theorem runCmd_bytes_ne (runMode cmd : String) (h : runCmd runMode = some cmd) :
    bytesOf cmd ≠ [] := by
  have hm := runCmd_mem runMode cmd h
  simp only [List.mem_cons, List.mem_singleton, List.mem_nil_iff, or_false] at hm
  rcases hm with h | h | h | h | h | h <;> subst h <;> decide

theorem runCmd_unknown (runMode : String)
    (h : runMode ∉ ["md", "sms", "cd", "os", "m10", "ssf"]) : runCmd runMode = none := by
  simp only [List.mem_cons, List.mem_singleton, List.mem_nil_iff, or_false, not_or] at h
  obtain ⟨h1, h2, h3, h4, h5, h6⟩ := h
  simp only [runCmd, h1, h2, h3, h4, h5, h6, if_false]

theorem runCmd_known (runMode : String)
    (h : runMode ∈ ["md", "sms", "cd", "os", "m10", "ssf"]) : ∃ cmd, runCmd runMode = some cmd := by
  simp only [List.mem_cons, List.mem_singleton, List.mem_nil_iff, or_false] at h
  rcases h with h | h | h | h | h | h <;> subst h <;> exact ⟨_, rfl⟩

theorem startGame_whole {fh : Serial} (h : AcceptsAll fh) (fuel : Nat) (hf : 2 ≤ fuel)
    (runMode cmd : String) (hc : runCmd runMode = some cmd) (w : World) :
    startGame fh fuel runMode w =
      if fh.line w.reads ≠ x7_OK then
        .exit 1 ("ERROR: Bad response from cart: " ++ fh.line w.reads)
          ⟨w.writes + 1, w.reads + 1, w.written ++ bytesOf cmd, w.sent ++ [bytesOf cmd], w.log⟩
      else
        .done ()
          ⟨w.writes + 1, w.reads + 1, w.written ++ bytesOf cmd, w.sent ++ [bytesOf cmd], w.log⟩ := by
  simp only [startGame, hc, writeSerial_whole h (bytesOf cmd) (runCmd_bytes_ne runMode cmd hc)
    fuel hf, readSerial]

/-- The session on a port that accepts every write, for an image of whole
blocks, with the final state spelled out. -/
theorem session_whole (md5 : List Byte → List Byte) {fh : Serial} (h : AcceptsAll fh)
    (fuel : Nat) (hf : 2 ≤ fuel) (runMode : String) (g : List Byte)
    (hg : g.length % blockSize = 0) (w : World) :
    session md5 fh fuel runMode g w =
      if fh.line w.reads ≠ x7_OK then
        .exit 1 "ERROR: Bad response from cart"
          ⟨w.writes + 1, w.reads + 1, w.written ++ bytesOf x7_InitCmd,
            w.sent ++ [bytesOf x7_InitCmd], w.log⟩
      else if fh.line (w.reads + 1) ≠ x7_OK then
        .exit 1 "ERROR: Bad response from cart"
          ⟨w.writes + 3, w.reads + 2,
            w.written ++ bytesOf x7_InitCmd ++ bytesOf x7_LoadGameCmd ++
              [g.length / blockSize % 256],
            w.sent ++ [bytesOf x7_InitCmd, bytesOf x7_LoadGameCmd, [g.length / blockSize % 256]],
            w.log⟩
      else if fh.line (w.reads + 2) ≠ x7_DataOK then
        .exit 1 "ERROR: Bad response from cart"
          ⟨w.writes + 3 + g.length / blockSize, w.reads + 3,
            w.written ++ bytesOf x7_InitCmd ++ bytesOf x7_LoadGameCmd ++
              [g.length / blockSize % 256] ++ g,
            w.sent ++ [bytesOf x7_InitCmd, bytesOf x7_LoadGameCmd, [g.length / blockSize % 256]]
              ++ blocksOf g,
            w.log⟩
      else match runCmd runMode with
        | none =>
          .exit (-1) "Unsupported runMode specified"
            ⟨w.writes + 3 + g.length / blockSize, w.reads + 3,
              w.written ++ bytesOf x7_InitCmd ++ bytesOf x7_LoadGameCmd ++
                [g.length / blockSize % 256] ++ g,
              w.sent ++ [bytesOf x7_InitCmd, bytesOf x7_LoadGameCmd,
                [g.length / blockSize % 256]] ++ blocksOf g,
              w.log⟩
        | some cmd =>
          if fh.line (w.reads + 3) ≠ x7_OK then
            .exit 1 ("ERROR: Bad response from cart: " ++ fh.line (w.reads + 3))
              ⟨w.writes + 4 + g.length / blockSize, w.reads + 4,
                w.written ++ bytesOf x7_InitCmd ++ bytesOf x7_LoadGameCmd ++
                  [g.length / blockSize % 256] ++ g ++ bytesOf cmd,
                w.sent ++ [bytesOf x7_InitCmd, bytesOf x7_LoadGameCmd,
                  [g.length / blockSize % 256]] ++ blocksOf g ++ [bytesOf cmd],
                w.log⟩
          else
            .done ()
              ⟨w.writes + 4 + g.length / blockSize, w.reads + 4,
                w.written ++ bytesOf x7_InitCmd ++ bytesOf x7_LoadGameCmd ++
                  [g.length / blockSize % 256] ++ g ++ bytesOf cmd,
                w.sent ++ [bytesOf x7_InitCmd, bytesOf x7_LoadGameCmd,
                  [g.length / blockSize % 256]] ++ blocksOf g ++ [bytesOf cmd],
                w.log⟩ := by
  simp only [session, checkX7_whole h fuel hf]
  by_cases k0 : fh.line w.reads = x7_OK
  · simp only [k0, ne_eq, not_true_eq_false, if_false, sendGame_whole md5 h fuel hf g hg]
    by_cases k1 : fh.line (w.reads + 1) = x7_OK
    · simp only [k1, ne_eq, not_true_eq_false, if_false]
      by_cases k2 : fh.line (w.reads + 1 + 1) = x7_DataOK
      · have k2b : fh.line (w.reads + 2) = x7_DataOK := k2
        simp only [k2, k2b, ne_eq, not_true_eq_false, if_false]
        cases hc : runCmd runMode with
        | none =>
          simp only [startGame_unsupported fh fuel runMode _ hc, Run.exit.injEq,
            World.mk.injEq, List.append_assoc, List.singleton_append, List.cons_append,
            List.nil_append, true_and, and_true]
        | some cmd =>
          simp only [startGame_whole h fuel hf runMode cmd hc, List.append_assoc,
            List.singleton_append, List.cons_append, List.nil_append, Nat.add_assoc,
            Nat.reduceAdd]
          have e1 : w.writes + (3 + (g.length / blockSize + 1)) =
              w.writes + (4 + g.length / blockSize) := by omega
          rw [e1]
      · have k2b : fh.line (w.reads + 2) ≠ x7_DataOK := k2
        simp only [k2, k2b, ne_eq, not_false_eq_true, if_true, Run.exit.injEq,
          World.mk.injEq, List.append_assoc, List.singleton_append, List.cons_append,
          List.nil_append, true_and, and_true]
    · simp only [k1, ne_eq, not_false_eq_true, if_true, Run.exit.injEq,
        World.mk.injEq, List.append_assoc, List.singleton_append, List.cons_append,
        List.nil_append, true_and, and_true]
  · simp only [k0, ne_eq, not_false_eq_true, if_true]

/-! ## The padding loop -/

/-- The number of bytes the padding loop appends to `n` bytes. -/
theorem pad_turn (n : Nat) (h : n % blockSize ≠ 0) :
    (blockSize - (n + 1) % blockSize) % blockSize + 1 = (blockSize - n % blockSize) % blockSize := by
  have hb : 0 < blockSize := by decide
  have hlt : n % blockSize < blockSize := Nat.mod_lt _ hb
  have h2 : 1 % blockSize = 1 := by decide
  rw [Nat.add_mod, h2]
  by_cases h1 : n % blockSize + 1 = blockSize
  · rw [h1, Nat.mod_self, Nat.sub_zero, Nat.mod_self, Nat.mod_eq_of_lt (by omega)]
    omega
  · rw [Nat.mod_eq_of_lt (a := n % blockSize + 1) (by omega),
      Nat.mod_eq_of_lt (a := blockSize - (n % blockSize + 1)) (by omega),
      Nat.mod_eq_of_lt (a := blockSize - n % blockSize) (by omega)]
    omega

theorem padLoop_eq (fileData : List Byte) :
    padLoop fileData =
      fileData ++ List.replicate ((blockSize - fileData.length % blockSize) % blockSize) 0 := by
  induction fileData using padLoop.induct with
  | case1 g h ih =>
    rw [padLoop, if_pos h, ih, List.append_assoc, ← pad_turn g.length h]
    simp only [List.length_append, List.length_singleton, List.replicate_succ,
      List.singleton_append]
  | case2 g h =>
    rw [padLoop, if_neg h]
    have h0 : g.length % blockSize = 0 := by simpa using h
    rw [h0, Nat.sub_zero, Nat.mod_self, List.replicate_zero, List.append_nil]

theorem padLoop_length (fileData : List Byte) :
    (padLoop fileData).length =
      fileData.length + (blockSize - fileData.length % blockSize) % blockSize := by
  rw [padLoop_eq, List.length_append, List.length_replicate]

theorem padLoop_length_mod (fileData : List Byte) :
    (padLoop fileData).length % blockSize = 0 := by
  rw [padLoop_length]
  have hb : 0 < blockSize := by decide
  have hlt : fileData.length % blockSize < blockSize := Nat.mod_lt _ hb
  have hd := Nat.div_add_mod fileData.length blockSize
  by_cases h0 : fileData.length % blockSize = 0
  · rw [h0, Nat.sub_zero, Nat.mod_self, Nat.add_zero, h0]
  · rw [Nat.mod_eq_of_lt (a := blockSize - fileData.length % blockSize) (by omega)]
    have e : fileData.length + (blockSize - fileData.length % blockSize) =
        blockSize * (fileData.length / blockSize + 1) := by
      rw [Nat.mul_add, Nat.mul_one]; omega
    rw [e, Nat.mul_mod_right]

/-! ## Facts shared by the results below -/

theorem count_fits (n : Nat) (h : n ≤ maxGameSize) :
    n / blockSize ≤ 240 ∧ n / blockSize % 256 = n / blockSize := by
  have h1 : n / blockSize ≤ maxGameSize / blockSize := Nat.div_le_div_right h
  have h2 : maxGameSize / blockSize = 240 := by decide
  rw [h2] at h1
  exact ⟨h1, Nat.mod_eq_of_lt (by omega)⟩

theorem blocksOf_length (image : List Byte) :
    (blocksOf image).length = image.length / blockSize := by
  simp [blocksOf]

theorem blocksOf_get (image : List Byte) (i : Nat) (h : i < image.length / blockSize) :
    (blocksOf image)[i]? = some ((image.drop (i * blockSize)).take blockSize) := by
  simp [blocksOf, List.getElem?_map, List.getElem?_range h]

/-- What `Advanced` says when nothing had been written or read before. -/
theorem Advanced.fresh {w w1 : World} {bufs : List (List Byte)} {n : Nat}
    (h : Advanced w w1 bufs n) (hw : w.written = []) (hs : w.sent = []) (hr : w.reads = 0) :
    w1.written = bufs.flatten ∧ w1.sent = bufs ∧ w1.reads = n := by
  refine ⟨?_, ?_, ?_⟩
  · rw [h.written_eq, hw, List.nil_append]
  · rw [h.sent_eq, hs, List.nil_append]
  · rw [h.reads_eq, hr, Nat.zero_add]

theorem goodPort_acceptsAll : AcceptsAll goodPort := fun _ _ => rfl

theorem silentPort_acceptsAll : AcceptsAll silentPort := fun _ _ => rfl

theorem refusingPort_acceptsAll : AcceptsAll refusingPort := fun _ _ => rfl

theorem busyPort_reliable : Reliable busyPort where
  bounded k p := by
    show (0 : Int) ≤ ((if k % 2 = 0 then 0 else min 1 p.length : Nat) : Int) ∧
      ((if k % 2 = 0 then 0 else min 1 p.length : Nat) : Int) ≤ (p.length : Int)
    refine ⟨Int.ofNat_nonneg _, Int.ofNat_le.mpr ?_⟩
    split <;> omega
  transient k p := Or.inr rfl
  progress k p hp := by
    have hpos : 0 < p.length := List.length_pos.mpr hp
    refine ⟨2 * k + 1, by omega, ?_⟩
    show (0 : Int) < ((if (2 * k + 1) % 2 = 0 then 0 else min 1 p.length : Nat) : Int)
    have : (2 * k + 1) % 2 ≠ 0 := by omega
    rw [if_neg this]
    omega

theorem oneBlock_length : oneBlock.length = blockSize := by
  rw [oneBlock, List.length_replicate]

theorem twoBlocks_length : twoBlocks.length = 2 * blockSize := by
  rw [twoBlocks, List.length_replicate]

theorem main_eq (md5 : List Byte → List Byte) (fh : Serial) (fuel : Nat) (runMode : String)
    (fileData : List Byte) :
    main md5 fh fuel runMode fileData =
      if maxGameSize < (padLoop fileData).length then
        .exit 1 "Game data exceeds maximum size of 15728640 bytes" World.init
      else
        session md5 fh fuel runMode (padLoop fileData)
          (if ((padLoop fileData).drop 0x100).take 4 ≠ bytesOf "SEGA" then
            { World.init with log := [.romWarning] }
          else World.init) := rfl

/-- Past the size test `main` runs the session on the padded image, on a port
on which nothing has been written or read yet. -/
theorem main_runs (md5 : List Byte → List Byte) (fh : Serial) (runMode : String)
    (fileData : List Byte) (h : (padLoop fileData).length ≤ maxGameSize) :
    ∃ w : World, w.written = [] ∧ w.sent = [] ∧ w.reads = 0 ∧ w.writes = 0 ∧
      (∀ m ∈ w.log, m = LogMsg.romWarning) ∧
      ∀ fuel, main md5 fh fuel runMode fileData =
        session md5 fh fuel runMode (padLoop fileData) w := by
  have hn : ¬ maxGameSize < (padLoop fileData).length := Nat.not_lt.mpr h
  by_cases hs : ((padLoop fileData).drop 0x100).take 4 ≠ bytesOf "SEGA"
  · refine ⟨{ World.init with log := [.romWarning] }, rfl, rfl, rfl, rfl, ?_, fun fuel => ?_⟩
    · intro m hm
      simpa using hm
    · rw [main_eq, if_neg hn, if_pos hs]
  · refine ⟨World.init, rfl, rfl, rfl, rfl, ?_, fun fuel => ?_⟩
    · intro m hm
      simp [World.init] at hm
    · rw [main_eq, if_neg hn, if_neg hs]

/-- The session that goes through, on a reliable port that has not been used:
the four answers are `k`, `k`, `d`, `k` and the run mode is a known one. -/
theorem session_happy (md5 : List Byte → List Byte) {fh : Serial} (hr : Reliable fh)
    (runMode cmd : String) (hc : runCmd runMode = some cmd) (g : List Byte)
    (hg : g.length % blockSize = 0) (hmax : g.length ≤ maxGameSize) (w : World)
    (hw : w.written = []) (hs : w.sent = []) (hr0 : w.reads = 0)
    (h0 : fh.line 0 = x7_OK) (h1 : fh.line 1 = x7_OK) (h2 : fh.line 2 = x7_DataOK)
    (h3 : fh.line 3 = x7_OK) :
    ∃ f0 w1, (∀ fuel, f0 ≤ fuel → session md5 fh fuel runMode g w = .done () w1) ∧
      w1.written = bytesOf x7_InitCmd ++ bytesOf x7_LoadGameCmd ++ [g.length / blockSize] ++ g
        ++ bytesOf cmd ∧
      w1.sent = [bytesOf x7_InitCmd, bytesOf x7_LoadGameCmd, [g.length / blockSize]]
        ++ blocksOf g ++ [bytesOf cmd] ∧
      w1.reads = 4 ∧
      ∀ m ∈ w1.log, m ∈ w.log ∨ m = LogMsg.tryingAgain := by
  obtain ⟨f0, w1, w2, w3, w4, _, _, _, ha4, h⟩ := session_lands md5 hr runMode g hg w
  have hA := ha4 cmd hc
  rw [(count_fits g.length hmax).2] at hA
  obtain ⟨e1, e2, e3⟩ := hA.fresh hw hs hr0
  refine ⟨f0, w4, fun fuel hf => ?_, ?_, e2, e3, hA.log_sub⟩
  · rw [(h fuel hf).2.2]
    simp only [hr0, Nat.zero_add, h0, h1, h2, h3, hc, ne_eq, not_true_eq_false, if_false]
  · rw [e1]
    simp only [List.flatten_append, List.flatten_cons, List.flatten_nil, List.append_nil,
      blocksOf_flatten g hg, List.append_assoc]

/-! ## The size ceiling and the padding loop -/

/-- C8, as the code has it. The size ceiling of `main` is `maxGameSize`
= 0xf00000 = `blockSize` × 240, below `blockSize` × 256: `main` exits on a
padded image above it and runs the session on any other, and a padded image
passes exactly when it has at most 240 blocks. -/
theorem maxGameSize_is_240_blocks (md5 : List Byte → List Byte) (fh : Serial) (fuel : Nat)
    (runMode : String) (fileData : List Byte) :
    maxGameSize = blockSize * 240 ∧ maxGameSize < blockSize * 256 ∧
    main md5 fh fuel runMode fileData =
      (if maxGameSize < (padLoop fileData).length then
        .exit 1 "Game data exceeds maximum size of 15728640 bytes" World.init
      else
        session md5 fh fuel runMode (padLoop fileData)
          (if ((padLoop fileData).drop 0x100).take 4 ≠ bytesOf "SEGA" then
            { World.init with log := [.romWarning] }
          else World.init)) ∧
    ((padLoop fileData).length ≤ maxGameSize ↔ (padLoop fileData).length / blockSize ≤ 240) := by
  refine ⟨by decide, by decide, main_eq md5 fh fuel runMode fileData, ?_⟩
  have hm := padLoop_length_mod fileData
  have hd := Nat.div_add_mod (padLoop fileData).length blockSize
  rw [hm, Nat.add_zero] at hd
  have hmax : maxGameSize = blockSize * 240 := by decide
  have hb : 0 < blockSize := by decide
  constructor
  · intro h
    exact (count_fits _ h).1
  · intro h
    rw [← hd, hmax]
    exact Nat.mul_le_mul_left _ h

/-- C8, refuted as stated: a file of 241 blocks is no larger than `blockSize`
× 256, yet `main` exits on it before the port is used. -/
theorem bigFile_rejected :
    maxGameSize < blockSize * 256 ∧ bigFile.length ≤ blockSize * 256 ∧
    main id goodPort 2 "md" bigFile =
      .exit 1 "Game data exceeds maximum size of 15728640 bytes" World.init := by
  have hl : bigFile.length = 241 * blockSize := by rw [bigFile, List.length_replicate]
  have hp : (padLoop bigFile).length = 241 * blockSize := by
    rw [padLoop_length, hl]
    decide
  refine ⟨by decide, by rw [hl]; decide, ?_⟩
  rw [main_eq, hp, if_pos (by decide)]

/-- C10. The padding loop returns the file content followed by zero bytes, of
the least length that is a multiple of `blockSize` and at least the original
length; `main` exits exactly when that length exceeds `maxGameSize`, and else
hands the padded image, of at most 240 whole blocks, to the session. -/
theorem padLoop_pads_to_block (md5 : List Byte → List Byte) (fh : Serial) (fuel : Nat)
    (runMode : String) (fileData : List Byte) :
    (padLoop fileData).length % blockSize = 0 ∧
    fileData.length ≤ (padLoop fileData).length ∧
    (∀ m, m % blockSize = 0 → fileData.length ≤ m → (padLoop fileData).length ≤ m) ∧
    padLoop fileData =
      fileData ++ List.replicate ((padLoop fileData).length - fileData.length) 0 ∧
    main md5 fh fuel runMode fileData =
      (if maxGameSize < (padLoop fileData).length then
        .exit 1 "Game data exceeds maximum size of 15728640 bytes" World.init
      else
        session md5 fh fuel runMode (padLoop fileData)
          (if ((padLoop fileData).drop 0x100).take 4 ≠ bytesOf "SEGA" then
            { World.init with log := [.romWarning] }
          else World.init)) ∧
    (¬ maxGameSize < (padLoop fileData).length → (padLoop fileData).length / blockSize ≤ 240) := by
  have hb : 0 < blockSize := by decide
  have hlen := padLoop_length fileData
  have hmod := padLoop_length_mod fileData
  have hlt : (blockSize - fileData.length % blockSize) % blockSize < blockSize :=
    Nat.mod_lt _ hb
  refine ⟨hmod, by omega, ?_, ?_, main_eq md5 fh fuel runMode fileData, ?_⟩
  · intro m hm hle
    by_contra hcon
    have h1 := Nat.div_add_mod (padLoop fileData).length blockSize
    have h2 := Nat.div_add_mod m blockSize
    rw [hmod, Nat.add_zero] at h1
    rw [hm, Nat.add_zero] at h2
    have h3 : m / blockSize < (padLoop fileData).length / blockSize := by
      by_contra h4
      have := Nat.mul_le_mul_left blockSize (Nat.le_of_not_lt h4)
      omega
    have h5 := Nat.mul_le_mul_left blockSize (Nat.succ_le_of_lt h3)
    rw [Nat.mul_succ] at h5
    omega
  · have e : (padLoop fileData).length - fileData.length =
        (blockSize - fileData.length % blockSize) % blockSize := by omega
    rw [e]
    exact padLoop_eq fileData
  · intro h
    exact (count_fits _ (Nat.le_of_not_lt h)).1

/-! ## writeSerial -/

/-- Where every count lies between 0 and the length of the slice offered, the
only error is the transient one and a byte is accepted after finitely many
tries, `writeSerial` returns for every buffer once the fuel suffices, and the
bytes the port has accepted are then the old ones followed by the buffer, each
byte once and in order. -/
theorem writeSerial_delivers_in_range (fh : Serial) (buf : List Byte) (w : World)
    (hr : Reliable fh) :
    ∃ f0 w1, (∀ fuel, f0 ≤ fuel → writeSerial fh fuel buf w = .done () w1) ∧
      w1.written = w.written ++ buf ∧ w1.sent = w.sent ++ [buf] ∧ w1.reads = w.reads := by
  obtain ⟨f0, w1, ha, h⟩ := writeSerial_lands hr buf w
  exact ⟨f0, w1, h, by simpa using ha.written_eq, ha.sent_eq, by simpa using ha.reads_eq⟩

/-- C7, where the code falls short of it. `writeSerial` adds the count to
`wrote` before it looks at the error, and a port may report the transient
error with the count -1. The port `staleCountPort` reports no error but the
transient one and accepts a byte within three calls, yet with the buffer
`[1, 2, 3]` it ends up having accepted `[1, 2, 2, 3]`: `wrote` steps back from
2 to 1 and the byte 2 is sent twice. With `busyFirstPort`, whose first call
reports the transient error, `wrote` becomes -1 and `buf[wrote:]` panics with
nothing delivered. -/
theorem writeSerial_resends_after_negative_count :
    (∀ k p, (staleCountPort.write k p).2 = none ∨
      (staleCountPort.write k p).2 = some "resource temporarily unavailable") ∧
    (∀ k p, p ≠ [] → ∃ j, k ≤ j ∧ 0 < (staleCountPort.write j p).1) ∧
    (∀ g, writeSerial staleCountPort (g + 4) [1, 2, 3] World.init =
      .done () ⟨3, 0, [1, 2, 2, 3], [[1, 2, 3]], [.tryingAgain]⟩) ∧
    (∀ g, writeSerial busyFirstPort (g + 2) [1, 2, 3] World.init =
      .exit 2 "panic: runtime error: slice bounds out of range"
        ⟨1, 0, [], [], [.tryingAgain]⟩) := by
  refine ⟨?_, ?_, ?_, ?_⟩
  · intro k p
    simp only [staleCountPort]
    split_ifs <;> simp
  · intro k p hp
    have hpos : 0 < p.length := List.length_pos.mpr hp
    refine ⟨k + 2, by omega, ?_⟩
    show (0 : Int) < (if k + 2 = 0 then ((2 : Int), (none : Option String))
      else if k + 2 = 1 then (-1, some "resource temporarily unavailable")
      else ((p.length : Int), none)).1
    rw [if_neg (by omega), if_neg (by omega)]
    show (0 : Int) < (p.length : Int)
    omega
  · intro g
    simp [writeSerial, writeSerialLoop, staleCountPort, World.init]
  · intro g
    simp [writeSerial, writeSerialLoop, busyFirstPort, World.init]

/-! ## sendGame -/

/-- C1. For an image of whole blocks, at most `maxGameSize` long, on a port
that accepts every write, once the load command is answered `k`: `sendGame`
hands to `writeSerial` the load command, the count byte and then the
`len/blockSize` blocks of the image, block `i` being
`image[i*blockSize : (i+1)*blockSize]`, one `Write` call each; the blocks put
end to end are the image, the bytes accepted are the command, the count and
the image, the stream folded into `wroteMd5` is the image, and no digest
mismatch is printed. -/
theorem sendGame_transmits_image (md5 : List Byte → List Byte) (fh : Serial) (fuel : Nat)
    (image : List Byte) (w : World) (hacc : AcceptsAll fh) (hfuel : 2 ≤ fuel)
    (hpos : 0 < image.length) (hmul : image.length % blockSize = 0)
    (hmax : image.length ≤ maxGameSize) (hk : fh.line w.reads = x7_OK) :
    ∃ w1,
      (sendGame md5 fh fuel image w = .done () w1 ∨
        sendGame md5 fh fuel image w = .exit 1 "ERROR: Bad response from cart" w1) ∧
      w1.sent = w.sent ++ [bytesOf x7_LoadGameCmd, [image.length / blockSize]] ++ blocksOf image ∧
      (blocksOf image).length = image.length / blockSize ∧
      0 < (blocksOf image).length ∧
      (∀ i, i < image.length / blockSize →
        (blocksOf image)[i]? = some ((image.drop (i * blockSize)).take blockSize)) ∧
      (blocksOf image).flatten = image ∧
      w1.written = w.written ++ bytesOf x7_LoadGameCmd ++ [image.length / blockSize] ++ image ∧
      w1.writes = w.writes + 2 + image.length / blockSize ∧
      (∀ u, ∃ u1, sendBlocks fh fuel (image.length / blockSize) image [] u = .done image u1) ∧
      w1.log = w.log := by
  have hc := (count_fits image.length hmax).2
  have hs := sendGame_whole md5 hacc fuel hfuel image hmul w
  rw [hc] at hs
  simp only [hk, ne_eq, not_true_eq_false, if_false] at hs
  have hle : image.length / blockSize * blockSize ≤ image.length := Nat.div_mul_le_self _ _
  have htake : image.take (image.length / blockSize * blockSize) = image := by
    apply List.take_of_length_le
    rw [Nat.div_mul_cancel (Nat.dvd_of_mod_eq_zero hmul)]
  have hblocks : 0 < image.length / blockSize :=
    Nat.div_pos (Nat.le_of_dvd hpos (Nat.dvd_of_mod_eq_zero hmul)) (by decide)
  refine ⟨⟨w.writes + 2 + image.length / blockSize, w.reads + 2,
      w.written ++ bytesOf x7_LoadGameCmd ++ [image.length / blockSize] ++ image,
      w.sent ++ [bytesOf x7_LoadGameCmd, [image.length / blockSize]] ++ blocksOf image, w.log⟩,
    ?_, rfl, blocksOf_length image, ?_, blocksOf_get image,
    blocksOf_flatten image hmul, rfl, rfl, ?_, rfl⟩
  · by_cases hd : fh.line (w.reads + 1) = x7_DataOK
    · left
      rw [hs]
      simp only [hd, ne_eq, not_true_eq_false, if_false]
    · right
      rw [hs]
      simp only [hd, ne_eq, not_false_eq_true, if_true]
  · rw [blocksOf_length]
    exact hblocks
  · intro u
    have hb := sendBlocks_whole hacc fuel hfuel _ image [] u hle
    rw [htake, List.nil_append] at hb
    exact ⟨_, hb⟩

/-- C1 at the port that answers `k`, `k`, `d`, with the image of two zero
blocks, just after the handshake. -/
theorem sendGame_transmits_image_witness :
    AcceptsAll goodPort ∧ 0 < twoBlocks.length ∧ twoBlocks.length % blockSize = 0 ∧
    twoBlocks.length ≤ maxGameSize ∧ goodPort.line 1 = x7_OK ∧
    ∃ w1,
      (sendGame id goodPort 2 twoBlocks ⟨1, 1, bytesOf x7_InitCmd, [bytesOf x7_InitCmd], []⟩ =
          .done () w1 ∨
        sendGame id goodPort 2 twoBlocks ⟨1, 1, bytesOf x7_InitCmd, [bytesOf x7_InitCmd], []⟩ =
          .exit 1 "ERROR: Bad response from cart" w1) ∧
      w1.written =
        bytesOf x7_InitCmd ++ bytesOf x7_LoadGameCmd ++ [twoBlocks.length / blockSize] ++
          twoBlocks :=
  have hl : twoBlocks.length = 2 * blockSize := twoBlocks_length
  have h1 : 0 < twoBlocks.length := by rw [hl]; decide
  have h2 : twoBlocks.length % blockSize = 0 := by rw [hl]; decide
  have h3 : twoBlocks.length ≤ maxGameSize := by rw [hl]; decide
  ⟨goodPort_acceptsAll, h1, h2, h3, rfl,
    let ⟨w1, ha, _, _, _, _, _, hw, _⟩ :=
      sendGame_transmits_image id goodPort 2 twoBlocks
        ⟨1, 1, bytesOf x7_InitCmd, [bytesOf x7_InitCmd], []⟩
        goodPort_acceptsAll (le_refl 2) h1 h2 h3 rfl
    ⟨w1, ha, hw⟩⟩

/-- C2. For an image of whole blocks, at most `maxGameSize` long, on a
reliable port that answers `k` to the load command: the buffer `sendGame`
delivers after the load command is one byte, its value is `len/blockSize`
with nothing lost to the conversion to a byte, it is at most 255 (indeed at
most 240), and the buffers delivered after it are that many blocks. -/
theorem count_byte_is_block_count (md5 : List Byte → List Byte) (fh : Serial)
    (image : List Byte) (w : World) (hr : Reliable fh) (hmul : image.length % blockSize = 0)
    (hmax : image.length ≤ maxGameSize) (hk : fh.line w.reads = x7_OK) :
    image.length / blockSize % 256 = image.length / blockSize ∧
    image.length / blockSize ≤ 255 ∧
    ∃ f0 w1 b blocks,
      (∀ fuel, f0 ≤ fuel →
        (sendGame md5 fh fuel image w = .done () w1 ∨
          sendGame md5 fh fuel image w = .exit 1 "ERROR: Bad response from cart" w1)) ∧
      w1.sent = w.sent ++ [bytesOf x7_LoadGameCmd, [b]] ++ blocks ∧
      b = image.length / blockSize ∧ blocks.length = b ∧ b ≤ 255 ∧ blocks = blocksOf image := by
  obtain ⟨hle, hc⟩ := count_fits image.length hmax
  obtain ⟨f0, u1, u2, _, ha2, h⟩ := sendGame_lands md5 hr image hmul w
  rw [hc] at ha2
  have h255 : image.length / blockSize ≤ 255 := le_trans hle (by decide)
  refine ⟨hc, h255, f0, u2, image.length / blockSize, blocksOf image, ?_,
    by rw [ha2.sent_eq, List.append_assoc], rfl, blocksOf_length image, h255, rfl⟩
  intro fuel hf
  rw [h fuel hf]
  simp only [hk, ne_eq, not_true_eq_false, if_false]
  by_cases hd : fh.line (w.reads + 1) = x7_DataOK
  · left; simp only [hd, not_true_eq_false, if_false]
  · right; simp only [hd, not_false_eq_true, if_true]

/-- C2 at the busy port (it answers `k` to everything), with the image of one
zero block. -/
theorem count_byte_is_block_count_witness :
    Reliable busyPort ∧ oneBlock.length % blockSize = 0 ∧ oneBlock.length ≤ maxGameSize ∧
    busyPort.line 0 = x7_OK ∧
    ∃ f0 w1 b blocks,
      (∀ fuel, f0 ≤ fuel →
        (sendGame id busyPort fuel oneBlock World.init = .done () w1 ∨
          sendGame id busyPort fuel oneBlock World.init =
            .exit 1 "ERROR: Bad response from cart" w1)) ∧
      w1.sent = [bytesOf x7_LoadGameCmd, [b]] ++ blocks ∧ blocks.length = b ∧ b ≤ 255 :=
  have h2 : oneBlock.length % blockSize = 0 := by rw [oneBlock_length]; decide
  have h3 : oneBlock.length ≤ maxGameSize := by rw [oneBlock_length]; decide
  ⟨busyPort_reliable, h2, h3, rfl,
    let ⟨_, _, f0, w1, b, blocks, ha, hs, _, hb, hb2, _⟩ :=
      count_byte_is_block_count id busyPort oneBlock World.init busyPort_reliable h2 h3 rfl
    ⟨f0, w1, b, blocks, ha, hs, hb, hb2⟩⟩

/-! ## The session -/

/-- C3. When the line read after the handshake command is not `k` (the empty
line of a timeout included), whatever the image and the run mode: a session
whose handshake write returns exits with status 1 with nothing written after
that write, the only buffer handed to `writeSerial` being the handshake
command, and one line read; where the port returns no negative count the
bytes it has accepted are the handshake command and nothing else; and on a
reliable port the handshake write does return, so the session ends just so. -/
theorem handshake_refused_stops_session (md5 : List Byte → List Byte) (fh : Serial)
    (runMode : String) (image : List Byte) (h : fh.line 0 ≠ x7_OK) :
    (∀ fuel w1, writeSerial fh fuel (bytesOf x7_InitCmd) World.init = .done () w1 →
      ∃ w2, session md5 fh fuel runMode image World.init =
          .exit 1 "ERROR: Bad response from cart" w2 ∧
        w2.written = w1.written ∧ w2.sent = [bytesOf x7_InitCmd] ∧ w2.reads = 1 ∧
        ((∀ k p, 0 ≤ (fh.write k p).1) → w2.written = bytesOf x7_InitCmd)) ∧
    (Reliable fh →
      ∃ f0 w2, (∀ fuel, f0 ≤ fuel → session md5 fh fuel runMode image World.init =
          .exit 1 "ERROR: Bad response from cart" w2) ∧
        w2.written = bytesOf x7_InitCmd ∧ w2.sent = [bytesOf x7_InitCmd] ∧ w2.reads = 1) := by
  constructor
  · intro fuel w1 hw
    obtain ⟨hs, hr1⟩ := writeSerial_frame fh fuel _ _ _ hw
    have hr0 : w1.reads = 0 := hr1
    have hs0 : w1.sent = [bytesOf x7_InitCmd] := by simpa [World.init] using hs
    have hne : (readSerial fh w1).1 ≠ x7_OK := by simpa [readSerial, hr0] using h
    refine ⟨(readSerial fh w1).2, ?_, rfl, hs0, ?_, fun hnn => ?_⟩
    · simp only [session, checkX7, hw, hne, ne_eq, not_false_eq_true, if_true]
    · show w1.reads + 1 = 1
      rw [hr0]
    · have ha := writeSerial_done fh hnn fuel _ _ _ hw
      show w1.written = bytesOf x7_InitCmd
      simpa [World.init] using ha.written_eq
  · intro hr
    obtain ⟨f0, w1, ha, hc⟩ := checkX7_lands hr World.init
    obtain ⟨e1, e2, e3⟩ := ha.fresh rfl rfl rfl
    refine ⟨f0, w1, fun fuel hf => ?_, by simpa using e1, e2, e3⟩
    have h' : fh.line World.init.reads ≠ x7_OK := h
    simp only [session, hc fuel hf, h', ne_eq, not_false_eq_true, if_true]

/-- C3 at the port that never answers, with the image of one zero block. -/
theorem handshake_refused_stops_session_witness :
    silentPort.line 0 ≠ x7_OK ∧
    ∃ w2, session id silentPort 2 "md" oneBlock World.init =
        .exit 1 "ERROR: Bad response from cart" w2 ∧
      w2.written = bytesOf x7_InitCmd ∧ w2.sent = [bytesOf x7_InitCmd] ∧ w2.reads = 1 :=
  ⟨by decide,
    let ⟨w2, hs, _, hsent, hreads, hw⟩ :=
      (handshake_refused_stops_session id silentPort "md" oneBlock (by decide)).1 2
        ⟨1, 0, bytesOf x7_InitCmd, [bytesOf x7_InitCmd], []⟩
        (writeSerial_whole silentPort_acceptsAll _ (by decide) 2 (le_refl 2) World.init)
    ⟨w2, hs, hw (fun _ _ => Int.ofNat_nonneg _), hsent, hreads⟩⟩

/-- C6. For an image of whole blocks, at most `maxGameSize` long, on a
reliable port that answers `k` to the handshake and to the load command and
something other than `d` after the blocks: `checkX7` returns, `sendGame`
exits with status 1 and so does the session; the bytes accepted by the port
are the handshake command, `*g`, the count byte and the image, and no buffer
was handed to `writeSerial` after the last block. -/
theorem transfer_refused_stops_session (md5 : List Byte → List Byte) (fh : Serial)
    (runMode : String) (image : List Byte) (hr : Reliable fh)
    (hmul : image.length % blockSize = 0) (hmax : image.length ≤ maxGameSize)
    (h0 : fh.line 0 = x7_OK) (h1 : fh.line 1 = x7_OK) (h2 : fh.line 2 ≠ x7_DataOK) :
    ∃ f0 u w1,
      (∀ fuel, f0 ≤ fuel →
        checkX7 fh fuel World.init = .done () u ∧
        sendGame md5 fh fuel image u = .exit 1 "ERROR: Bad response from cart" w1 ∧
        session md5 fh fuel runMode image World.init =
          .exit 1 "ERROR: Bad response from cart" w1) ∧
      w1.written =
        bytesOf x7_InitCmd ++ bytesOf x7_LoadGameCmd ++ [image.length / blockSize] ++ image ∧
      w1.sent =
        [bytesOf x7_InitCmd, bytesOf x7_LoadGameCmd, [image.length / blockSize]] ++
          blocksOf image ∧
      w1.reads = 3 := by
  obtain ⟨f0, w1, w2, w3, w4, _, _, ha3, _, h⟩ :=
    session_lands md5 hr runMode image hmul World.init
  rw [(count_fits image.length hmax).2] at ha3
  obtain ⟨e1, e2, e3⟩ := ha3.fresh rfl rfl rfl
  have r0 : World.init.reads = 0 := rfl
  refine ⟨f0, w1, w3, fun fuel hf => ?_, ?_, e2, e3⟩
  · obtain ⟨c1, c2, c3⟩ := h fuel hf
    rw [c1, c2, c3]
    simp only [r0, Nat.zero_add, h0, h1, h2, ne_eq, not_true_eq_false, not_false_eq_true,
      if_false, if_true, and_self]
  · rw [e1]
    simp only [List.flatten_append, List.flatten_cons, List.flatten_nil, List.append_nil,
      blocksOf_flatten image hmul, List.append_assoc]

/-- C6 at the port that answers `k`, `k`, `x`, with the image of two zero
blocks. -/
theorem transfer_refused_stops_session_witness :
    Reliable refusingPort ∧ twoBlocks.length % blockSize = 0 ∧
    twoBlocks.length ≤ maxGameSize ∧ refusingPort.line 0 = x7_OK ∧
    refusingPort.line 1 = x7_OK ∧ refusingPort.line 2 ≠ x7_DataOK ∧
    ∃ f0 w1,
      (∀ fuel, f0 ≤ fuel → session id refusingPort fuel "md" twoBlocks World.init =
        .exit 1 "ERROR: Bad response from cart" w1) ∧
      w1.written =
        bytesOf x7_InitCmd ++ bytesOf x7_LoadGameCmd ++ [twoBlocks.length / blockSize] ++
          twoBlocks :=
  have h2 : twoBlocks.length % blockSize = 0 := by rw [twoBlocks_length]; decide
  have h3 : twoBlocks.length ≤ maxGameSize := by rw [twoBlocks_length]; decide
  ⟨refusingPort_acceptsAll.reliable, h2, h3, rfl, rfl, by decide,
    let ⟨f0, _, w1, h, hw, _⟩ :=
      transfer_refused_stops_session id refusingPort "md" twoBlocks
        refusingPort_acceptsAll.reliable h2 h3 rfl rfl (by decide)
    ⟨f0, w1, fun fuel hf => (h fuel hf).2.2, hw⟩⟩

/-- C9. For an image of whole blocks, at most `maxGameSize` long, a run mode
among the six known ones, and a reliable port that answers `k`, `k`, `d`, `k`:
the session returns, no digest mismatch is printed, and the bytes accepted by
the port are the handshake command, `*g`, the count byte, the image and the
run command of the mode; the six modes have the six commands `*rm`, `*rs`,
`*rc`, `*ro`, `*rM`, `*rS`, no two alike. -/
theorem session_completes (md5 : List Byte → List Byte) (fh : Serial) (runMode : String)
    (image : List Byte) (hr : Reliable fh) (hmul : image.length % blockSize = 0)
    (hmax : image.length ≤ maxGameSize)
    (hmode : runMode ∈ ["md", "sms", "cd", "os", "m10", "ssf"])
    (h0 : fh.line 0 = x7_OK) (h1 : fh.line 1 = x7_OK) (h2 : fh.line 2 = x7_DataOK)
    (h3 : fh.line 3 = x7_OK) :
    (∃ cmd f0 w1, runCmd runMode = some cmd ∧
      (∀ fuel, f0 ≤ fuel → session md5 fh fuel runMode image World.init = .done () w1) ∧
      w1.written =
        bytesOf x7_InitCmd ++ bytesOf x7_LoadGameCmd ++ [image.length / blockSize] ++ image ++
          bytesOf cmd ∧
      w1.sent =
        [bytesOf x7_InitCmd, bytesOf x7_LoadGameCmd, [image.length / blockSize]] ++
          blocksOf image ++ [bytesOf cmd] ∧
      w1.reads = 4 ∧ ∀ m ∈ w1.log, m = LogMsg.tryingAgain) ∧
    bytesOf x7_InitCmd = [32, 32, 32, 32, 42, 84] ∧ bytesOf x7_LoadGameCmd = [42, 103] ∧
    runCmd "md" = some "*rm" ∧ runCmd "sms" = some "*rs" ∧ runCmd "cd" = some "*rc" ∧
    runCmd "os" = some "*ro" ∧ runCmd "m10" = some "*rM" ∧ runCmd "ssf" = some "*rS" ∧
    (["*rm", "*rs", "*rc", "*ro", "*rM", "*rS"].map bytesOf).Nodup := by
  refine ⟨?_, by decide, by decide, by decide, by decide, by decide, by decide, by decide,
    by decide, by decide⟩
  obtain ⟨cmd, hc⟩ := runCmd_known runMode hmode
  obtain ⟨f0, w1, h, e1, e2, e3, hl⟩ :=
    session_happy md5 hr runMode cmd hc image hmul hmax World.init rfl rfl rfl h0 h1 h2 h3
  refine ⟨cmd, f0, w1, hc, h, e1, e2, e3, fun m hm => ?_⟩
  rcases hl m hm with h5 | h5
  · simp [World.init] at h5
  · exact h5

/-- C9 at the port that answers `k`, `k`, `d`, `k`, with the image of two zero
blocks and the run mode `md`. -/
theorem session_completes_witness :
    Reliable goodPort ∧ twoBlocks.length % blockSize = 0 ∧ twoBlocks.length ≤ maxGameSize ∧
    "md" ∈ ["md", "sms", "cd", "os", "m10", "ssf"] ∧
    goodPort.line 0 = x7_OK ∧ goodPort.line 1 = x7_OK ∧ goodPort.line 2 = x7_DataOK ∧
    goodPort.line 3 = x7_OK ∧
    ∃ cmd f0 w1, runCmd "md" = some cmd ∧
      (∀ fuel, f0 ≤ fuel → session id goodPort fuel "md" twoBlocks World.init = .done () w1) ∧
      w1.written =
        bytesOf x7_InitCmd ++ bytesOf x7_LoadGameCmd ++ [twoBlocks.length / blockSize] ++
          twoBlocks ++ bytesOf cmd :=
  have h2 : twoBlocks.length % blockSize = 0 := by rw [twoBlocks_length]; decide
  have h3 : twoBlocks.length ≤ maxGameSize := by rw [twoBlocks_length]; decide
  ⟨goodPort_acceptsAll.reliable, h2, h3, by decide, rfl, rfl, rfl, rfl,
    let ⟨⟨cmd, f0, w1, hc, h, hw, _⟩, _⟩ :=
      session_completes id goodPort "md" twoBlocks goodPort_acceptsAll.reliable h2 h3
        (by decide) rfl rfl rfl rfl
    ⟨cmd, f0, w1, hc, h, hw⟩⟩

/-- C4, as the code has it. For a run mode outside the six known ones,
`startGame` exits with status -1 before it writes or reads anything itself:
the port is as `startGame` found it and no run command is sent. But `main`
calls `startGame` last: for an image of whole blocks, at most `maxGameSize`
long, on a reliable port that answers `k`, `k`, `d`, the session that ends so
has had the port accept the handshake command, `*g`, the count byte and the
image, and has read three lines. -/
theorem unknown_mode_exits_in_startGame (md5 : List Byte → List Byte) (fh : Serial)
    (runMode : String) (image : List Byte)
    (hmode : runMode ∉ ["md", "sms", "cd", "os", "m10", "ssf"]) (hr : Reliable fh)
    (hmul : image.length % blockSize = 0) (hmax : image.length ≤ maxGameSize)
    (h0 : fh.line 0 = x7_OK) (h1 : fh.line 1 = x7_OK) (h2 : fh.line 2 = x7_DataOK) :
    (∀ fuel w, startGame fh fuel runMode w = .exit (-1) "Unsupported runMode specified" w) ∧
    ∃ f0 w1,
      (∀ fuel, f0 ≤ fuel → session md5 fh fuel runMode image World.init =
        .exit (-1) "Unsupported runMode specified" w1) ∧
      w1.written =
        bytesOf x7_InitCmd ++ bytesOf x7_LoadGameCmd ++ [image.length / blockSize] ++ image ∧
      w1.sent =
        [bytesOf x7_InitCmd, bytesOf x7_LoadGameCmd, [image.length / blockSize]] ++
          blocksOf image ∧
      w1.reads = 3 := by
  have hc := runCmd_unknown runMode hmode
  refine ⟨fun fuel w => startGame_unsupported fh fuel runMode w hc, ?_⟩
  obtain ⟨f0, w1, w2, w3, w4, _, _, ha3, _, h⟩ :=
    session_lands md5 hr runMode image hmul World.init
  rw [(count_fits image.length hmax).2] at ha3
  obtain ⟨e1, e2, e3⟩ := ha3.fresh rfl rfl rfl
  have r0 : World.init.reads = 0 := rfl
  refine ⟨f0, w3, fun fuel hf => ?_, ?_, e2, e3⟩
  · rw [(h fuel hf).2.2]
    simp only [r0, Nat.zero_add, h0, h1, h2, hc, ne_eq, not_true_eq_false, if_false]
  · rw [e1]
    simp only [List.flatten_append, List.flatten_cons, List.flatten_nil, List.append_nil,
      blocksOf_flatten image hmul, List.append_assoc]

/-- C4, as the code has it, at the port that answers `k`, `k`, `d`, with one
zero block and the run mode `xyz`. -/
theorem unknown_mode_exits_in_startGame_witness :
    "xyz" ∉ ["md", "sms", "cd", "os", "m10", "ssf"] ∧ Reliable goodPort ∧
    oneBlock.length % blockSize = 0 ∧ oneBlock.length ≤ maxGameSize ∧
    goodPort.line 0 = x7_OK ∧ goodPort.line 1 = x7_OK ∧ goodPort.line 2 = x7_DataOK ∧
    (∀ fuel w, startGame goodPort fuel "xyz" w =
      .exit (-1) "Unsupported runMode specified" w) ∧
    ∃ f0 w1,
      (∀ fuel, f0 ≤ fuel → session id goodPort fuel "xyz" oneBlock World.init =
        .exit (-1) "Unsupported runMode specified" w1) ∧
      w1.reads = 3 :=
  have h2 : oneBlock.length % blockSize = 0 := by rw [oneBlock_length]; decide
  have h3 : oneBlock.length ≤ maxGameSize := by rw [oneBlock_length]; decide
  ⟨by decide, goodPort_acceptsAll.reliable, h2, h3, rfl, rfl, rfl,
    let ⟨hs, f0, w1, h, _, _, hr⟩ :=
      unknown_mode_exits_in_startGame id goodPort "xyz" oneBlock (by decide)
        goodPort_acceptsAll.reliable h2 h3 rfl rfl rfl
    ⟨hs, f0, w1, h, hr⟩⟩

/-- C4, refuted as stated: with the run mode `xyz`, one zero block and a port
that accepts every write and answers `k`, `k`, `d`, the session exits on the
run mode only after four `Write` calls and three reads, the port having
accepted the handshake command, the load command, the count byte 1 and the
block. -/
theorem unknown_mode_rejected_late :
    "xyz" ∉ ["md", "sms", "cd", "os", "m10", "ssf"] ∧
    session id goodPort 2 "xyz" oneBlock World.init =
      .exit (-1) "Unsupported runMode specified"
        ⟨4, 3, bytesOf x7_InitCmd ++ bytesOf x7_LoadGameCmd ++ [1] ++ oneBlock,
          [bytesOf x7_InitCmd, bytesOf x7_LoadGameCmd, [1], oneBlock], []⟩ ∧
    bytesOf x7_InitCmd ++ bytesOf x7_LoadGameCmd ++ [1] ++ oneBlock ≠ [] := by
  have hmul : oneBlock.length % blockSize = 0 := by rw [oneBlock_length]; decide
  have hq : oneBlock.length / blockSize = 1 := by rw [oneBlock_length]; decide
  have hb : blocksOf oneBlock = [oneBlock] := by
    have h1 := blocksOf_length oneBlock
    have h2 := blocksOf_flatten oneBlock hmul
    rw [hq] at h1
    match hbo : blocksOf oneBlock, h1 with
    | [b], _ =>
      rw [hbo] at h2
      simp only [List.flatten_cons, List.flatten_nil, List.append_nil] at h2
      rw [h2]
  have hn : runCmd "xyz" = none := by decide
  have k0 : ¬ goodPort.line World.init.reads ≠ x7_OK := by decide
  have k1 : ¬ goodPort.line (World.init.reads + 1) ≠ x7_OK := by decide
  have k2 : ¬ goodPort.line (World.init.reads + 2) ≠ x7_DataOK := by decide
  have hc : (1 : Nat) % 256 = 1 := by decide
  refine ⟨by decide, ?_, ?_⟩
  · rw [session_whole id goodPort_acceptsAll 2 (le_refl 2) "xyz" oneBlock hmul World.init,
      hq, hb, if_neg k0, if_neg k1, if_neg k2, hc]
    simp only [hn, World.init, List.nil_append, List.cons_append, Nat.zero_add, Nat.reduceAdd]
  · rw [List.append_assoc, List.append_assoc]
    exact List.append_ne_nil_of_left_ne_nil (by decide) _

/-- The padding of a file that does not end on a block boundary. -/
theorem padLoop_odd (fileData : List Byte) (hodd : fileData.length % blockSize ≠ 0) :
    padLoop fileData =
      fileData ++ List.replicate (blockSize - fileData.length % blockSize) 0 ∧
    (padLoop fileData).length = fileData.length + (blockSize - fileData.length % blockSize) ∧
    (padLoop fileData).length / blockSize = fileData.length / blockSize + 1 := by
  have hb : 0 < blockSize := by decide
  have hlt : fileData.length % blockSize < blockSize := Nat.mod_lt _ hb
  have e : (blockSize - fileData.length % blockSize) % blockSize =
      blockSize - fileData.length % blockSize := Nat.mod_eq_of_lt (by omega)
  have h1 := padLoop_eq fileData
  have h2 := padLoop_length fileData
  rw [e] at h1 h2
  refine ⟨h1, h2, ?_⟩
  have hd := Nat.div_add_mod fileData.length blockSize
  have e2 : (padLoop fileData).length = (fileData.length / blockSize + 1) * blockSize := by
    rw [h2, Nat.add_mul, Nat.one_mul, Nat.mul_comm]; omega
  rw [e2, Nat.mul_div_cancel _ hb]

/-- C5, as the code has it. A file whose length is not a multiple of
`blockSize` is not turned away: `main` pads it with zero bytes to the next
multiple, and when the padded length is at most `maxGameSize` the protocol
runs on the padded image; on a reliable port that answers `k`, `k`, `d`, `k`,
with a known run mode, `main` returns and the port has accepted the handshake
command, `*g`, the count byte, the file content, the padding and the run
command. -/
theorem odd_length_file_is_padded (md5 : List Byte → List Byte) (fh : Serial)
    (runMode : String) (fileData : List Byte)
    (hodd : fileData.length % blockSize ≠ 0)
    (hfit : fileData.length + (blockSize - fileData.length % blockSize) ≤ maxGameSize)
    (hr : Reliable fh) (hmode : runMode ∈ ["md", "sms", "cd", "os", "m10", "ssf"])
    (h0 : fh.line 0 = x7_OK) (h1 : fh.line 1 = x7_OK) (h2 : fh.line 2 = x7_DataOK)
    (h3 : fh.line 3 = x7_OK) :
    padLoop fileData =
      fileData ++ List.replicate (blockSize - fileData.length % blockSize) 0 ∧
    ∃ cmd f0 w1, runCmd runMode = some cmd ∧
      (∀ fuel, f0 ≤ fuel → main md5 fh fuel runMode fileData = .done () w1) ∧
      w1.written =
        bytesOf x7_InitCmd ++ bytesOf x7_LoadGameCmd ++ [fileData.length / blockSize + 1] ++
          (fileData ++ List.replicate (blockSize - fileData.length % blockSize) 0) ++
          bytesOf cmd := by
  obtain ⟨p1, p2, p3⟩ := padLoop_odd fileData hodd
  refine ⟨p1, ?_⟩
  obtain ⟨cmd, hc⟩ := runCmd_known runMode hmode
  have hmax : (padLoop fileData).length ≤ maxGameSize := by rw [p2]; exact hfit
  obtain ⟨w, hw, hs, hr0, _, _, hm⟩ := main_runs md5 fh runMode fileData hmax
  obtain ⟨f0, w1, h, e1, _⟩ :=
    session_happy md5 hr runMode cmd hc (padLoop fileData) (padLoop_length_mod fileData) hmax
      w hw hs hr0 h0 h1 h2 h3
  refine ⟨cmd, f0, w1, hc, fun fuel hf => ?_, ?_⟩
  · rw [hm fuel, h fuel hf]
  · rw [e1, p3, p1]

/-- C5, as the code has it, at the port that answers `k`, `k`, `d`, `k`, with
the file of `blockSize + 1` zero bytes and the run mode `md`. -/
theorem odd_length_file_is_padded_witness :
    oddFile.length % blockSize ≠ 0 ∧
    oddFile.length + (blockSize - oddFile.length % blockSize) ≤ maxGameSize ∧
    Reliable goodPort ∧ "md" ∈ ["md", "sms", "cd", "os", "m10", "ssf"] ∧
    goodPort.line 0 = x7_OK ∧ goodPort.line 1 = x7_OK ∧ goodPort.line 2 = x7_DataOK ∧
    goodPort.line 3 = x7_OK ∧
    padLoop oddFile = oddFile ++ List.replicate (blockSize - oddFile.length % blockSize) 0 ∧
    ∃ f0 w1, ∀ fuel, f0 ≤ fuel → main id goodPort fuel "md" oddFile = .done () w1 :=
  have hl : oddFile.length = blockSize + 1 := by rw [oddFile, List.length_replicate]
  have h1 : oddFile.length % blockSize ≠ 0 := by rw [hl]; decide
  have h2 : oddFile.length + (blockSize - oddFile.length % blockSize) ≤ maxGameSize := by
    rw [hl]; decide
  ⟨h1, h2, goodPort_acceptsAll.reliable, by decide, rfl, rfl, rfl, rfl,
    let ⟨hp, _, f0, w1, _, h, _⟩ :=
      odd_length_file_is_padded id goodPort "md" oddFile h1 h2 goodPort_acceptsAll.reliable
        (by decide) rfl rfl rfl rfl
    ⟨hp, f0, w1, h⟩⟩

/-- C5, refuted as stated: the file of `blockSize + 1` zero bytes is not
turned away. On a port that accepts every write and answers `k`, `k`, `d`,
`k`, `main` returns after six `Write` calls and four reads, the port having
accepted the handshake command, the load command, the count byte 2, the file
content, `blockSize - 1` zero bytes of padding and the run command. -/
theorem odd_length_file_uploaded :
    oddFile.length = blockSize + 1 ∧
    ∃ w1, main id goodPort 2 "md" oddFile = .done () w1 ∧
      w1.writes = 6 ∧ w1.reads = 4 ∧
      w1.written =
        bytesOf x7_InitCmd ++ bytesOf x7_LoadGameCmd ++ [2] ++
          (oddFile ++ List.replicate (blockSize - 1) 0) ++ bytesOf x7_RunMegadrive := by
  have hl : oddFile.length = blockSize + 1 := by rw [oddFile, List.length_replicate]
  have hodd : oddFile.length % blockSize ≠ 0 := by rw [hl]; decide
  obtain ⟨p1, p2, p3⟩ := padLoop_odd oddFile hodd
  have hr1 : oddFile.length % blockSize = 1 := by rw [hl]; decide
  have hq : oddFile.length / blockSize = 1 := by rw [hl]; decide
  rw [hr1] at p1 p2
  rw [hq] at p3
  have hmax : (padLoop oddFile).length ≤ maxGameSize := by rw [p2, hl]; decide
  obtain ⟨w, hw, _, hr0, hw0, _, hm⟩ := main_runs id goodPort "md" oddFile hmax
  have hc : runCmd "md" = some x7_RunMegadrive := by decide
  have k0 : ¬ goodPort.line w.reads ≠ x7_OK := by rw [hr0]; decide
  have k1 : ¬ goodPort.line (w.reads + 1) ≠ x7_OK := by rw [hr0]; decide
  have k2 : ¬ goodPort.line (w.reads + 2) ≠ x7_DataOK := by rw [hr0]; decide
  have k3 : ¬ goodPort.line (w.reads + 3) ≠ x7_OK := by rw [hr0]; decide
  have h256 : (2 : Nat) % 256 = 2 := by decide
  refine ⟨hl, ⟨w.writes + 4 + (padLoop oddFile).length / blockSize, w.reads + 4,
    w.written ++ bytesOf x7_InitCmd ++ bytesOf x7_LoadGameCmd ++
      [(padLoop oddFile).length / blockSize % 256] ++ padLoop oddFile ++
        bytesOf x7_RunMegadrive,
    w.sent ++ [bytesOf x7_InitCmd, bytesOf x7_LoadGameCmd,
      [(padLoop oddFile).length / blockSize % 256]] ++ blocksOf (padLoop oddFile) ++
        [bytesOf x7_RunMegadrive], w.log⟩, ?_, ?_, ?_, ?_⟩
  · rw [hm 2, session_whole id goodPort_acceptsAll 2 (le_refl 2) "md" (padLoop oddFile)
      (padLoop_length_mod oddFile) w, if_neg k0, if_neg k1, if_neg k2]
    simp only [hc, if_neg k3]
  · show w.writes + 4 + (padLoop oddFile).length / blockSize = 6
    rw [hw0, p3]
  · show w.reads + 4 = 4
    rw [hr0]
  · show w.written ++ bytesOf x7_InitCmd ++ bytesOf x7_LoadGameCmd ++
      [(padLoop oddFile).length / blockSize % 256] ++ padLoop oddFile ++
        bytesOf x7_RunMegadrive = _
    rw [hw, p3, p1, h256, List.nil_append]

end MegaEdX7
